import Mathlib

/-!
Verification of the transaction-admission core of the Elastos ELA side chain
node: the two-phase transaction validator (`blockchain/txvalidator.go`), the
staged state cache (`blockchain/DBCache.go`) and the mempool fee calculator
(`mempool` fee helper).

Modelling conventions.

The native fixed-point amount type `Fixed64` is a Go `int64` and the token
amount type is a Go `big.Int`; both are modelled by the unbounded `Int`.
Go `int64` addition and subtraction wrap on overflow; every theorem below
compares expressions that are built from the same additions on both sides,
so the two-complement reduction preserves each stated equality and the
modelling choice is inessential to the claims.

External collaborators (serialization, cryptography, the ledger store and
the chain configuration) are modelled as explicit records of functions
(`Env` for static chain parameters and services, `Ledger` for chain state),
mirroring the interfaces listed in the specification. Floating-point
conversions performed by the source (the exchange-rate conversion
`Fixed64(float64(x) * ExchangeRate)` and the coinbase reward threshold
`Fixed64(float64(total) * 0.3)`) are modelled as abstract integer functions
carried by `Env`; no claim below depends on their concrete values.

Go map iteration order is unspecified; maps are modelled as association
lists iterated in insertion order. Every property proved about a map-valued
result is a property of individual key lookups and is insensitive to the
iteration order.
-/

namespace ElaSC

/-! ## Basic value and identifier types -/

/-- Model of `Uint256` (asset ids, transaction hashes). -/
abbrev Uint256 := Nat

/-- Model of `EmptyHash`. -/
def emptyHash : Uint256 := 0

/-- Model of `Uint168` program hashes: the leading byte (address kind) and
the remaining bytes. -/
structure PHash where
  pfx : Nat
  body : Nat
deriving DecidableEq, Repr

/-- The all-zero `Uint168`. -/
def emptyPHash : PHash := ⟨0, 0⟩

/-- Address-kind byte `PrefixStandard` (external constant). -/
def pfxStandard : Nat := 33

/-- Address-kind byte `PrefixMultisig` (external constant). -/
def pfxMultisig : Nat := 18

/-- Address-kind byte `PrefixCrossChain` (external constant). -/
def pfxCrossChain : Nat := 75

/-- Address-kind byte `PrefixRegisterId` (external constant). -/
def pfxRegisterId : Nat := 103

/-- Model of `OutPoint`: a reference to a previous transaction output. -/
structure OutPoint where
  txid : Uint256
  index : Nat
deriving DecidableEq, Repr

/-- Model of `core.Input`. -/
structure TxInput where
  previous : OutPoint
  sequence : Nat
deriving DecidableEq, Repr

/-- Model of `core.Output`. `value` is the fixed-point `Value` field and
`tokenValue` the big-integer `TokenValue` field. -/
structure TxOutput where
  assetID : Uint256
  value : Int
  tokenValue : Int
  programHash : PHash
  outputLock : Nat
deriving DecidableEq, Repr

/-- Default output used to model the value read by an out-of-range Go
index expression; the Go program would panic there, and no theorem below
depends on this value. -/
def defaultTxOutput : TxOutput := ⟨0, 0, 0, ⟨0, 0⟩, 0⟩

/-- Model of `core.Asset`. `assetHash` models the derived `Hash()`. -/
structure Asset where
  name : String
  precision : Nat
  assetHash : Uint256
deriving DecidableEq, Repr

/-- Transaction kind byte (`core.TxType`). -/
inductive TxType where
  | coinBase
  | registerAsset
  | transferAsset
  | record
  | rechargeToSideChain
  | transferCrossChainAsset
  | registerIdentification
deriving DecidableEq, Repr

/-- Fields of `PayloadTransferCrossChainAsset` (the three parallel arrays). -/
structure CCPayload where
  crossChainAddresses : List String
  crossChainAmounts : List Int
  outputIndexes : List Nat
deriving DecidableEq, Repr

/-- An output of the embedded main chain transaction; only the `Value` and
`ProgramHash` fields are consulted by the source. -/
structure MainTxOutput where
  value : Int
  programHash : PHash
deriving DecidableEq, Repr

/-- Model of the deserialized main chain transaction embedded in a recharge
payload. `ccPayload` is the result of the Go type assertion of its payload
to `PayloadTransferCrossChainAsset` (`none` models a failed assertion), and
`txHash` models its computed `Hash()`. -/
structure MainTx where
  outputs : List MainTxOutput
  ccPayload : Option CCPayload
  txHash : Uint256
deriving DecidableEq, Repr

/-- The discriminated transaction payload. The recharge variant carries the
deserialization results of its two byte fields: `proofParsed` is whether the
merkle proof bytes deserialize, and `mainTx` is the result of deserializing
the embedded main chain transaction (`none` models malformed bytes). -/
inductive Payload where
  | registerAsset (asset : Asset) (amount : Int) (controller : PHash)
  | transferAsset
  | record
  | coinBase
  | rechargeToSideChain (proofParsed : Bool) (mainTx : Option MainTx)
  | transferCrossChainAsset (pl : CCPayload)
  | registerIdentification
  | unknown
deriving DecidableEq, Repr

/-- Model of `core.Program` (a signature script). -/
structure TxProgram where
  code : Option (List Nat)
  parameter : Option (List Nat)
deriving DecidableEq, Repr

/-- Model of `core.Transaction`. `txSize` models `GetSize()` (the serialized
size) and `txHash` models `Hash()`, both computed by external serialization
code. -/
structure Transaction where
  txType : TxType
  payload : Payload
  inputs : List TxInput
  outputs : List TxOutput
  attributes : List Nat
  programs : List TxProgram
  lockTime : Nat
  txSize : Nat
  txHash : Uint256
deriving DecidableEq, Repr

/-- Model of `core.Transaction.IsCoinBaseTx`: the declared kind is coinbase. -/
def Transaction.isCoinBaseTx (tx : Transaction) : Bool :=
  tx.txType = TxType.coinBase

/-- Model of `IsRechargeToSideChainTx`. -/
def Transaction.isRechargeToSideChainTx (tx : Transaction) : Bool :=
  tx.txType = TxType.rechargeToSideChain

/-- Model of `IsTransferCrossChainAssetTx`. -/
def Transaction.isTransferCrossChainAssetTx (tx : Transaction) : Bool :=
  tx.txType = TxType.transferCrossChainAsset

/-- Model of `IsRegisterAssetTx`. -/
def Transaction.isRegisterAssetTx (tx : Transaction) : Bool :=
  tx.txType = TxType.registerAsset

/-! ## Static chain parameters and external services (`config.Parameters`,
the crypto library and address codecs) -/

/-- Static chain parameters and stateless external services consulted by the
validator. Function-valued fields model external library calls whose code is
outside this repository. -/
structure Env where
  assetID : Uint256
  foundationAddress : PHash
  maxBlockSize : Nat
  minTxFee : Int
  minCrossChainTxFee : Int
  exchangeRatePos : Bool
  rateConv : Int → Int
  coinbaseThresh : Int → Int
  spendCoinbaseSpan : Nat
  validAttrUsage : Nat → Bool
  toProgramHashOk : List Nat → Bool
  verifySig : Transaction → Bool
  addrToPHash : String → Option PHash
  pHashToAddr : PHash → Option String
  minPrecision : Nat
  maxPrecision : Nat

/-- Ledger state consulted by the context checks (`DefaultLedger` and its
store). -/
structure Ledger where
  isTxHashDuplicate : Uint256 → Bool
  isMainchainTxHashDuplicate : Uint256 → Bool
  getAsset : Uint256 → Option Asset
  getAssets : List Asset
  getTxReference : Transaction → Option (List (TxInput × TxOutput))
  getTransaction : Uint256 → Option Transaction
  getHeight : Nat
  isDoubleSpend : Transaction → Bool
  genesisProgramHash : Option PHash

/-- The error codes of the `errors` package used by the validator. -/
inductive ErrCode where
  | success
  | errTransactionSize
  | errInvalidInput
  | errInvalidOutput
  | errAssetPrecision
  | errAttributeProgram
  | errTransactionPayload
  | errTxHashDuplicate
  | errTransactionSignature
  | errRechargeToSideChain
  | errDoubleSpend
  | errUTXOLocked
  | errTransactionBalance
  | errUnknownReferedTxn
  | errInvalidReferedTxn
  | errIneffectiveCoinbase
deriving DecidableEq, Repr

/-! ## Association lists (models of Go maps, lookups in insertion order) -/

/-- Lookup in an association list (model of a Go map read). -/
def alGet {κ β : Type} [DecidableEq κ] : List (κ × β) → κ → Option β
  | [], _ => none
  | kv :: rest, k => if kv.1 = k then some kv.2 else alGet rest k

/-- Update-or-insert in an association list (model of a Go map write). -/
def alSet {κ β : Type} [DecidableEq κ] : List (κ × β) → κ → β → List (κ × β)
  | [], k, v => [(k, v)]
  | kv :: rest, k, v => if kv.1 = k then (k, v) :: rest else kv :: alSet rest k v

/-- The keys of an association list. -/
def alKeys {κ β : Type} (m : List (κ × β)) : List κ := m.map (·.1)

/-- Run a per-element check over a list, stopping at the first error
(the shape of the `for ... return err` loops of the source). -/
def eachCheck {α : Type} (f : α → Except String Unit) : List α → Except String Unit
  | [] => Except.ok ()
  | x :: rest =>
    match f x with
    | Except.error e => Except.error e
    | Except.ok _ => eachCheck f rest

/-! ## Sanity checks (`txvalidator.go`, context-free phase) -/

/-- Model of `CheckTransactionSize`: `0 < size <= MaxBlockSize`. -/
def checkTransactionSize (env : Env) (tx : Transaction) : Except String Unit :=
  if tx.txSize = 0 ∨ tx.txSize > env.maxBlockSize then
    Except.error "Invalid transaction size"
  else Except.ok ()

/-- The non-coinbase input loop of `CheckTransactionInput`: each input is
first tested against the empty sentinel reference, then against every
earlier input for a duplicate previous-output reference. -/
def dupInLoop : List TxInput → List TxInput → Except String Unit
  | _, [] => Except.ok ()
  | seen, x :: rest =>
    if x.previous.txid = emptyHash ∧ x.previous.index = 65535 then
      Except.error "invalid transaction input"
    else if seen.any (fun y => decide (y.previous = x.previous)) then
      Except.error "duplicated transaction inputs"
    else dupInLoop (seen ++ [x]) rest

/-- Model of `CheckTransactionInput`. -/
def checkTransactionInput (tx : Transaction) : Except String Unit :=
  if tx.isCoinBaseTx then
    match tx.inputs with
    | [i0] =>
      if i0.previous.txid ≠ emptyHash ∨ i0.previous.index ≠ 65535 then
        Except.error "invalid coinbase input"
      else Except.ok ()
    | _ => Except.error "coinbase must has only one input"
  else if tx.isRechargeToSideChainTx then Except.ok ()
  else if tx.inputs.length = 0 then Except.error "transaction has no inputs"
  else dupInLoop [] tx.inputs

/-- Model of `CheckOutputProgramHash`. -/
def checkOutputProgramHash (ph : PHash) : Bool :=
  decide (ph.pfx = pfxStandard ∨ ph.pfx = pfxMultisig ∨ ph.pfx = pfxCrossChain ∨
    ph.pfx = pfxRegisterId ∨ ph = emptyPHash)

/-- The per-output body of the non-coinbase branch of
`CheckTransactionOutput`. -/
def checkOneOutput (env : Env) (tx : Transaction) (o : TxOutput) : Except String Unit :=
  if o.assetID = emptyHash then Except.error "asset id is nil"
  else if o.assetID = env.assetID then
    if o.value < 0 ∨ o.tokenValue ≠ 0 then
      Except.error "invalid transaction output with ela asset id"
    else if ¬ checkOutputProgramHash o.programHash then
      Except.error "output address is invalid"
    else Except.ok ()
  else
    if tx.isRechargeToSideChainTx ∨ tx.isTransferCrossChainAssetTx then
      Except.error "cross chain asset tx asset id should only be ela asset id"
    else if o.tokenValue < 0 ∨ o.value ≠ 0 then
      Except.error "invalid transaction output with token asset id"
    else if ¬ checkOutputProgramHash o.programHash then
      Except.error "output address is invalid"
    else Except.ok ()

/-- Model of `CheckTransactionOutput`. The coinbase reward threshold
`Fixed64(float64(totalReward) * 0.3)` is `env.coinbaseThresh totalReward`. -/
def checkTransactionOutput (env : Env) (tx : Transaction) : Except String Unit :=
  if tx.isCoinBaseTx then
    if tx.outputs.length < 2 then
      Except.error "coinbase output is not enough, at least 2"
    else
      let totalReward := tx.outputs.foldl (fun acc o => acc + o.value) 0
      let foundationReward :=
        tx.outputs.foldl
          (fun acc o =>
            if o.programHash = env.foundationAddress then acc + o.value else acc) 0
      if foundationReward < env.coinbaseThresh totalReward then
        Except.error "Reward to foundation in coinbase lower than 30 percent"
      else Except.ok ()
  else if tx.outputs.length < 1 then Except.error "transaction has no outputs"
  else eachCheck (checkOneOutput env tx) tx.outputs

/-- Model of `checkAmountPrecise`: the amount divides evenly into the target
exponent. `math.Pow10` is exact on the exponents in range (at most 18). -/
def checkAmountPrecise (amount : Int) (precision assetPrecision : Nat) : Bool :=
  decide (amount % ((10 : Int) ^ (assetPrecision - precision)) = 0)

/-- One step of the grouping loop of `CheckAssetPrecision`:
`assetOutputs[v.AssetID] = append(assetOutputs[v.AssetID], v)` (a missing
key reads as the empty slice). -/
def groupStep (m : List (Uint256 × List TxOutput)) (o : TxOutput) :
    List (Uint256 × List TxOutput) :=
  match alGet m o.assetID with
  | some g => alSet m o.assetID (g ++ [o])
  | none => alSet m o.assetID [o]

/-- The grouping of outputs by asset id built by `CheckAssetPrecision`. -/
def groupOutputs (l : List TxOutput) : List (Uint256 × List TxOutput) :=
  l.foldl groupStep []

/-- Model of `CheckAssetPrecision`. Note that the source consults the
ledger (`DefaultLedger.GetAsset`) and tests the fixed-point `Value` field of
every output, with target exponent 8 for the native asset and 18 otherwise. -/
def checkAssetPrecision (env : Env) (st : Ledger) (tx : Transaction) : Except String Unit :=
  if tx.txType = TxType.registerAsset then Except.ok ()
  else if tx.outputs.length = 0 then Except.ok ()
  else
    eachCheck
      (fun kv =>
        match st.getAsset kv.1 with
        | none => Except.error "The asset not exist in local blockchain."
        | some asset =>
          eachCheck
            (fun o =>
              if o.assetID = env.assetID then
                if checkAmountPrecise o.value asset.precision 8 then Except.ok ()
                else Except.error "Invalide ela asset value,out of precise."
              else
                if checkAmountPrecise o.value asset.precision 18 then Except.ok ()
                else Except.error "Invalide asset value,out of precise.")
            kv.2)
      (groupOutputs tx.outputs)

/-- Model of `CheckAttributeProgram`. -/
def checkAttributeProgram (env : Env) (tx : Transaction) : Except String Unit :=
  match eachCheck
      (fun u =>
        if env.validAttrUsage u then Except.ok ()
        else Except.error "invalid attribute usage") tx.attributes with
  | Except.error e => Except.error e
  | Except.ok _ =>
    eachCheck
      (fun p =>
        match p.code with
        | none => Except.error "invalid program code nil"
        | some c =>
          match p.parameter with
          | none => Except.error "invalid program parameter nil"
          | some _ =>
            if env.toProgramHashOk c then Except.ok ()
            else Except.error "invalid program code")
      tx.programs

/-- Model of `CheckTransactionPayload`. -/
def checkTransactionPayload (env : Env) (tx : Transaction) : Except String Unit :=
  match tx.payload with
  | Payload.registerAsset asset amount _ =>
    if asset.precision < env.minPrecision ∨ asset.precision > env.maxPrecision then
      Except.error "Invalide asset Precision."
    else if tx.txHash = env.assetID then
      if checkAmountPrecise amount asset.precision 8 then Except.ok ()
      else Except.error "Invalide ela asset value,out of precise."
    else
      if checkAmountPrecise amount asset.precision 18 then Except.ok ()
      else Except.error "Invalide asset value,out of precise."
  | Payload.transferAsset => Except.ok ()
  | Payload.record => Except.ok ()
  | Payload.coinBase => Except.ok ()
  | Payload.rechargeToSideChain _ _ => Except.ok ()
  | Payload.transferCrossChainAsset _ => Except.ok ()
  | Payload.registerIdentification => Except.ok ()
  | Payload.unknown => Except.error "invalidate transaction payload type"

/-- Model of `CheckTransactionSanity`: the six checks in source order, each
mapped to its error code. The ledger argument is consulted only by the
asset-precision check. -/
def checkTransactionSanity (env : Env) (st : Ledger) (tx : Transaction) : ErrCode :=
  match checkTransactionSize env tx with
  | Except.error _ => ErrCode.errTransactionSize
  | Except.ok _ =>
  match checkTransactionInput tx with
  | Except.error _ => ErrCode.errInvalidInput
  | Except.ok _ =>
  match checkTransactionOutput env tx with
  | Except.error _ => ErrCode.errInvalidOutput
  | Except.ok _ =>
  match checkAssetPrecision env st tx with
  | Except.error _ => ErrCode.errAssetPrecision
  | Except.ok _ =>
  match checkAttributeProgram env tx with
  | Except.error _ => ErrCode.errAttributeProgram
  | Except.ok _ =>
  match checkTransactionPayload env tx with
  | Except.error _ => ErrCode.errTransactionPayload
  | Except.ok _ => ErrCode.success

/-! ## Context checks (`txvalidator.go`, ledger-dependent phase) -/

/-- Model of `CheckTransactionFee`. The source accumulates the transaction
outputs twice: once before resolving the input references (lines 325-331)
and once again after (lines 345-351); both loops are reproduced here. Each
loop accumulates the pair (native amount, token amount). -/
def checkTransactionFee (env : Env) (st : Ledger) (tx : Transaction) : Except String Unit :=
  let out1 : Int × Int :=
    tx.outputs.foldl
      (fun p o =>
        if o.assetID = env.assetID then (p.1 + o.value, p.2)
        else (p.1, p.2 + o.tokenValue))
      (0, 0)
  match st.getTxReference tx with
  | none => Except.error "GetTxReference failed"
  | some refs =>
    let inp : Int × Int :=
      refs.foldl
        (fun p io =>
          if io.2.assetID = env.assetID then (p.1 + io.2.value, p.2)
          else (p.1, p.2 + io.2.tokenValue))
        (0, 0)
    let out2 : Int × Int :=
      tx.outputs.foldl
        (fun p o =>
          if o.assetID = env.assetID then (p.1 + o.value, p.2)
          else (p.1, p.2 + o.tokenValue))
        out1
    let elaBalance := inp.1 - out2.1
    if tx.isTransferCrossChainAssetTx ∨ tx.isRechargeToSideChainTx then
      if elaBalance < env.minCrossChainTxFee then
        Except.error "crosschain transaction fee is not enough"
      else if inp.2 - out2.2 ≠ 0 then Except.error "token amount is not balanced"
      else Except.ok ()
    else
      if elaBalance < env.minTxFee then
        Except.error "transaction fee is not enough"
      else if inp.2 - out2.2 ≠ 0 then Except.error "token amount is not balanced"
      else Except.ok ()

/-- The reference loop of `CheckTransactionUTXOLock`. -/
def utxoLockLoop (tx : Transaction) : List (TxInput × TxOutput) → Except String Unit
  | [] => Except.ok ()
  | io :: rest =>
    if io.2.outputLock = 0 then utxoLockLoop tx rest
    else if io.1.sequence ≠ 4294967294 then Except.error "Invalid input sequence"
    else if tx.lockTime < io.2.outputLock then Except.error "UTXO output locked"
    else utxoLockLoop tx rest

/-- Model of `CheckTransactionUTXOLock`. -/
def checkTransactionUTXOLock (st : Ledger) (tx : Transaction) : Except String Unit :=
  if tx.isCoinBaseTx then Except.ok ()
  else if tx.inputs.length = 0 then Except.error "Transaction has no inputs"
  else
    match st.getTxReference tx with
    | none => Except.error "GetReference failed"
    | some refs => utxoLockLoop tx refs

/-- The token accumulation loop of `CheckRegisterAssetTransaction`: outputs
carrying the registered asset must pay to the payload controller, and their
token values are summed. -/
def registerTokenLoop (asset : Asset) (controller : PHash) :
    List TxOutput → Int → Except String Int
  | [], acc => Except.ok acc
  | o :: rest, acc =>
    if o.assetID = asset.assetHash then
      if o.programHash ≠ controller then
        Except.error "Register asset program hash not same as program hash in payload"
      else registerTokenLoop asset controller rest (acc + o.tokenValue)
    else registerTokenLoop asset controller rest acc

/-- Model of `CheckRegisterAssetTransaction`. The registered amount is
scaled by `10^18` (`getPrecisionBigInt`). -/
def checkRegisterAssetTransaction (st : Ledger) (tx : Transaction) : Except String Unit :=
  match tx.payload with
  | Payload.registerAsset asset amount controller =>
    if st.getAssets.any (fun a => decide (a.name = asset.name)) then
      Except.error "Asset name has been registed"
    else
      match registerTokenLoop asset controller tx.outputs 0 with
      | Except.error e => Except.error e
      | Except.ok totalToken =>
        if totalToken ≠ amount * 1000000000000000000 then
          Except.error "Invalid register asset amount"
        else Except.ok ()
  | _ => Except.error "Invalid register asset transaction payload"

/-- The entry loop of `CheckRechargeToSideChainTransaction`, iterating the
positions of the payload arrays. An out-of-range Go index expression is
modelled as a distinguished error (the Go program panics there).
`gph` is the genesis program hash, `acc` the accumulated expected total. -/
def rechargeEntryLoop (env : Env) (tx : Transaction) (mainTx : MainTx)
    (pl : CCPayload) (gph : PHash) : List Nat → Int → Except String Int
  | [], acc => Except.ok acc
  | i :: rest, acc =>
    match pl.outputIndexes[i]? with
    | none => Except.error "panic: index out of range"
    | some oi =>
      match mainTx.outputs[oi]? with
      | none => Except.error "panic: index out of range"
      | some mo =>
        if mo.programHash = gph then
          match pl.crossChainAmounts[i]? with
          | none => Except.error "panic: index out of range"
          | some amt =>
            if amt < 0 ∨ amt > mo.value - env.minCrossChainTxFee then
              Except.error "Invalid transaction cross chain amount"
            else
              let cc := env.rateConv amt
              match pl.crossChainAddresses[i]? with
              | none => Except.error "panic: index out of range"
              | some addr =>
                match env.addrToPHash addr with
                | none => Except.error "Invalid transaction payload cross chain address"
                | some ph =>
                  if tx.outputs.any (fun o => decide (o.programHash = ph ∧ o.value = cc)) then
                    rechargeEntryLoop env tx mainTx pl gph rest (acc + cc)
                  else Except.error "Invalid transaction outputs"
        else rechargeEntryLoop env tx mainTx pl gph rest acc

/-- The output total loop of `CheckRechargeToSideChainTransaction`: every
output value must be non-negative and the values are accumulated. -/
def rechargeTargetLoop : List TxOutput → Int → Except String Int
  | [], acc => Except.ok acc
  | o :: rest, acc =>
    if o.value < 0 then Except.error "Invalid transaction output value"
    else rechargeTargetLoop rest (acc + o.value)

/-- Model of `CheckRechargeToSideChainTransaction`. The payload type
assertion, the positive exchange rate requirement, the two deserializations,
the anti-replay check on the main chain transaction hash, the payload
assertion of the main chain transaction, the genesis program hash
derivation, the per-entry loop and the final exact total comparison follow
the source order. -/
def checkRechargeToSideChainTransaction (env : Env) (st : Ledger) (tx : Transaction) :
    Except String Unit :=
  match tx.payload with
  | Payload.rechargeToSideChain proofParsed mainTxOpt =>
    if ¬ env.exchangeRatePos then Except.error "Invalid config exchange rate"
    else if ¬ proofParsed then
      Except.error "RechargeToSideChain payload deserialize failed"
    else
      match mainTxOpt with
      | none => Except.error "RechargeToSideChain mainChainTransaction deserialize failed"
      | some mainTx =>
        if st.isMainchainTxHashDuplicate mainTx.txHash then
          Except.error "Duplicate mainchain transaction hash in paylod"
        else
          match mainTx.ccPayload with
          | none => Except.error "Invalid payload ela.PayloadTransferCrossChainAsset"
          | some pl =>
            match st.genesisProgramHash with
            | none => Except.error "Genesis block bytes to program hash failed"
            | some gph =>
              match rechargeEntryLoop env tx mainTx pl gph
                  (List.range pl.crossChainAddresses.length) 0 with
              | Except.error e => Except.error e
              | Except.ok oriTotal =>
                match rechargeTargetLoop tx.outputs 0 with
                | Except.error e => Except.error e
                | Except.ok targetTotal =>
                  if targetTotal ≠ oriTotal then
                    Except.error "Output and fee verify failed"
                  else Except.ok ()
  | _ => Except.error "Invalid recharge to side chain payload type"

/-- The output-index loop of `CheckTransferCrossChainAssetTransaction`:
indexes must be pairwise distinct and within the output count. -/
def ccIndexLoop (outLen : Nat) : List Nat → List Nat → Except String Unit
  | _, [] => Except.ok ()
  | seen, oi :: rest =>
    if oi ∈ seen ∨ oi ≥ outLen then
      Except.error "Invalid transaction payload cross chain index"
    else ccIndexLoop outLen (seen ++ [oi]) rest

/-- The address loop of `CheckTransferCrossChainAssetTransaction`: each
address must be non-empty, parse to a program hash, and carry a standard or
multisig kind byte. -/
def ccAddressLoop (env : Env) : List String → Except String Unit
  | [] => Except.ok ()
  | addr :: rest =>
    if addr = "" then Except.error "Invalid transaction cross chain address"
    else
      match env.addrToPHash addr with
      | none => Except.error "Invalid transaction cross chain address"
      | some ph =>
        if ph.pfx ≠ pfxStandard ∧ ph.pfx ≠ pfxMultisig then
          Except.error "Invalid transaction cross chain address"
        else ccAddressLoop env rest

/-- The amount loop of `CheckTransferCrossChainAssetTransaction`, iterating
the positions of the payload arrays. -/
def ccAmountLoop (env : Env) (tx : Transaction) (pl : CCPayload) :
    List Nat → Except String Unit
  | [] => Except.ok ()
  | i :: rest =>
    match pl.outputIndexes[i]? with
    | none => Except.error "panic: index out of range"
    | some oi =>
      match tx.outputs[oi]? with
      | none => Except.error "panic: index out of range"
      | some o =>
        if ¬ (o.programHash = emptyPHash) then
          Except.error "Invalid transaction output program hash"
        else
          match pl.crossChainAmounts[i]? with
          | none => Except.error "panic: index out of range"
          | some amt =>
            if o.value < 0 ∨ amt < 0 ∨ amt > o.value - env.minCrossChainTxFee then
              Except.error "Invalid transaction outputs"
            else ccAmountLoop env tx pl rest

/-- Model of `CheckTransferCrossChainAssetTransaction`. -/
def checkTransferCrossChainAssetTransaction (env : Env) (st : Ledger) (tx : Transaction) :
    Except String Unit :=
  match tx.payload with
  | Payload.transferCrossChainAsset pl =>
    if pl.crossChainAddresses.length = 0 ∨
        pl.crossChainAddresses.length > tx.outputs.length ∨
        pl.crossChainAddresses.length ≠ pl.crossChainAmounts.length ∨
        pl.crossChainAmounts.length ≠ pl.outputIndexes.length then
      Except.error "Invalid transaction payload content"
    else
      match ccIndexLoop tx.outputs.length [] pl.outputIndexes with
      | Except.error e => Except.error e
      | Except.ok _ =>
        let crossChainCount :=
          (tx.outputs.filter (fun o => decide (o.programHash = emptyPHash))).length
        if pl.crossChainAddresses.length ≠ crossChainCount then
          Except.error "Invalid transaction cross chain counts"
        else
          match ccAddressLoop env pl.crossChainAddresses with
          | Except.error e => Except.error e
          | Except.ok _ =>
            match ccAmountLoop env tx pl (List.range pl.outputIndexes.length) with
            | Except.error e => Except.error e
            | Except.ok _ =>
              match st.getTxReference tx with
              | none => Except.error "Invalid transaction inputs"
              | some refs =>
                let totalInput := refs.foldl (fun acc io => acc + io.2.value) 0
                let totalOutput := tx.outputs.foldl (fun acc o => acc + o.value) 0
                if totalInput - totalOutput < env.minCrossChainTxFee then
                  Except.error "Invalid transaction fee"
                else Except.ok ()
  | _ => Except.error "Invalid transfer cross chain asset payload type"

/-- Unsigned 32-bit subtraction (the coinbase maturity computation
`currentHeight - lockHeight` on Go `uint32` values). -/
def sub32 (a b : Nat) : Nat :=
  (a % 4294967296 + 4294967296 - b % 4294967296) % 4294967296

/-- The referenced-output loop at the end of `CheckTransactionContext`.
A referenced native-asset output must have positive value (a non-positive
token value is only logged), and a referenced coinbase must have matured.
An out-of-range output index would panic in Go and is modelled by the
default output. -/
def refLoop (env : Env) (st : Ledger) : List TxInput → ErrCode
  | [] => ErrCode.success
  | input :: rest =>
    match st.getTransaction input.previous.txid with
    | none => ErrCode.errUnknownReferedTxn
    | some referTxn =>
      let referTxnOut := referTxn.outputs.getD input.previous.index defaultTxOutput
      if referTxnOut.assetID = env.assetID ∧ referTxnOut.value ≤ 0 then
        ErrCode.errInvalidReferedTxn
      else if referTxn.isCoinBaseTx ∧
          sub32 st.getHeight referTxn.lockTime < env.spendCoinbaseSpan then
        ErrCode.errIneffectiveCoinbase
      else refLoop env st rest

/-- The referenced-output check of `CheckTransactionContext` as a named
sub-check (source lines 118-147). -/
def checkReferencedOutputs (env : Env) (st : Ledger) (tx : Transaction) : ErrCode :=
  refLoop env st tx.inputs

/-- Model of `CheckTransactionContext`: duplicate-hash check, coinbase
early accept, signature check, recharge branch (which returns either way),
transfer-cross-chain branch (which returns `ErrInvalidOutput` on failure and
otherwise falls through), register-asset branch, double-spend, UTXO lock,
fee, and the referenced-output loop. -/
def checkTransactionContext (env : Env) (st : Ledger) (tx : Transaction) : ErrCode :=
  if st.isTxHashDuplicate tx.txHash then ErrCode.errTxHashDuplicate
  else if tx.isCoinBaseTx then ErrCode.success
  else if ¬ env.verifySig tx then ErrCode.errTransactionSignature
  else if tx.isRechargeToSideChainTx then
    match checkRechargeToSideChainTransaction env st tx with
    | Except.error _ => ErrCode.errRechargeToSideChain
    | Except.ok _ => ErrCode.success
  else if tx.isTransferCrossChainAssetTx ∧
      (checkTransferCrossChainAssetTransaction env st tx).isOk = false then
    ErrCode.errInvalidOutput
  else if tx.isRegisterAssetTx ∧
      (checkRegisterAssetTransaction st tx).isOk = false then
    ErrCode.errInvalidOutput
  else if st.isDoubleSpend tx then ErrCode.errDoubleSpend
  else if (checkTransactionUTXOLock st tx).isOk = false then ErrCode.errUTXOLocked
  else if (checkTransactionFee env st tx).isOk = false then ErrCode.errTransactionBalance
  else checkReferencedOutputs env st tx

/-! ## Fee calculator (`mempool` fee helper, `GetTxFeeMap` and `GetTxFee`) -/

/-- One Go map accumulation step `m[k] = m[k] + v` with a missing key read
as presence-tested (`amout, ok := m[k]`): an absent key stores `v`. -/
def feeAccum (m : List (Uint256 × Int)) (k : Uint256) (v : Int) : List (Uint256 × Int) :=
  match alGet m k with
  | some a => alSet m k (a + v)
  | none => alSet m k v

/-- The inner scan of the recharge branch of `GetTxFeeMap`: for one side
chain output, every payload address is compared with the rendered output
address, and each match accumulates
`Fixed64(float64(mcAmount) * ExchangeRate) - v.Value` into the fee map. -/
def rechargeFeeEntryScan (env : Env) (mainTx : MainTx) (pl : CCPayload) (o : TxOutput)
    (m : List (Uint256 × Int)) : List Nat → Except String (List (Uint256 × Int))
  | [] => Except.ok m
  | i :: rest =>
    match env.pHashToAddr o.programHash with
    | none => Except.error "ToAddress failed"
    | some addr =>
      match pl.crossChainAddresses[i]? with
      | none => Except.error "panic: index out of range"
      | some ca =>
        if addr = ca then
          match pl.outputIndexes[i]? with
          | none => Except.error "panic: index out of range"
          | some oi =>
            match mainTx.outputs[oi]? with
            | none => Except.error "panic: index out of range"
            | some mo =>
              rechargeFeeEntryScan env mainTx pl o
                (feeAccum m o.assetID (env.rateConv mo.value - o.value)) rest
        else rechargeFeeEntryScan env mainTx pl o m rest

/-- The outer output loop of the recharge branch of `GetTxFeeMap`. -/
def rechargeFeeOutputsLoop (env : Env) (mainTx : MainTx) (pl : CCPayload) :
    List TxOutput → List (Uint256 × Int) → Except String (List (Uint256 × Int))
  | [], m => Except.ok m
  | o :: rest, m =>
    match rechargeFeeEntryScan env mainTx pl o m
        (List.range pl.crossChainAddresses.length) with
    | Except.error e => Except.error e
    | Except.ok m2 => rechargeFeeOutputsLoop env mainTx pl rest m2

/-- One step of the first combination loop of `GetTxFeeMap`: for an asset
with a resolved input sum, `feeMap[asset] = inputValue - outputValue`; for
an asset without one, `feeMap[asset] -= outputValue` (a missing fee entry
reads as zero). -/
def feeStep3 (inputs fm : List (Uint256 × Int)) (kv : Uint256 × Int) :
    List (Uint256 × Int) :=
  match alGet inputs kv.1 with
  | some iv => alSet fm kv.1 (iv - kv.2)
  | none => alSet fm kv.1 ((alGet fm kv.1).getD 0 - kv.2)

/-- One step of the second combination loop of `GetTxFeeMap`: an asset not
yet present in the fee map gets `feeMap[asset] += inputValue` (a missing
fee entry reads as zero). -/
def feeStep4 (fm : List (Uint256 × Int)) (kv : Uint256 × Int) : List (Uint256 × Int) :=
  if (alGet fm kv.1).isSome then fm
  else alSet fm kv.1 ((alGet fm kv.1).getD 0 + kv.2)

/-- The first combination loop of `GetTxFeeMap`, over the per-asset output
sums. -/
def feePhase3 (inputs outputs : List (Uint256 × Int)) : List (Uint256 × Int) :=
  outputs.foldl (feeStep3 inputs) []

/-- The second combination loop of `GetTxFeeMap`, over the per-asset input
sums. -/
def feePhase4 (inputs fm0 : List (Uint256 × Int)) : List (Uint256 × Int) :=
  inputs.foldl feeStep4 fm0

/-- Model of `FeeHelper.GetTxFeeMap`. The recharge branch deserializes the
embedded main chain transaction and accumulates the converted deposit minus
the side chain output value per matched output; the general branch builds
per-asset input and output sums from the resolved references and the
transaction outputs and combines them into the fee map. The Go type
assertions of the recharge branch are unchecked and panic on mismatch,
modelled as distinguished errors. -/
def getTxFeeMap (env : Env) (st : Ledger) (tx : Transaction) :
    Except String (List (Uint256 × Int)) :=
  if tx.isRechargeToSideChainTx then
    match tx.payload with
    | Payload.rechargeToSideChain _ mainTxOpt =>
      match mainTxOpt with
      | none => Except.error "GetTxFeeMap mainChainTransaction deserialize failed"
      | some mainTx =>
        match mainTx.ccPayload with
        | none => Except.error "panic: payload type assertion failed"
        | some pl => rechargeFeeOutputsLoop env mainTx pl tx.outputs []
    | _ => Except.error "panic: payload type assertion failed"
  else
    match st.getTxReference tx with
    | none => Except.error "GetTxReference failed"
    | some refs =>
      let inputs := refs.foldl (fun m io => feeAccum m io.2.assetID io.2.value) []
      let outputs := tx.outputs.foldl (fun m o => feeAccum m o.assetID o.value) []
      Except.ok (feePhase4 inputs (feePhase3 inputs outputs))

/-- Model of `FeeHelper.GetTxFee`: the single-asset balance, or zero when
the map computation failed or the asset is absent. -/
def getTxFee (env : Env) (st : Ledger) (tx : Transaction) (assetId : Uint256) : Int :=
  match getTxFeeMap env st tx with
  | Except.error _ => 0
  | Except.ok fm => (alGet fm assetId).getD 0

/-! ## Staged state cache (`DBCache.go`) -/

/-- Opaque staged state values (`IStateValueInterface`). Serialization of a
state value and `states.GetStateValue` live outside `src/`; following the
specification of `commit` (a batched put of the serialized value) and `get`
(a read through to the store), serialization is modelled as the identity, so
the store holds state values directly. -/
abbrev StateValue := Nat

/-- Model of `storage.Write` (one staged write-set entry). -/
structure SWrite where
  pfx : Nat
  key : String
  item : Option StateValue
  isDeleted : Bool
deriving DecidableEq, Repr

/-- The write set, keyed by the storage key string as in
`RWSet.WriteSet map[string]*Write`. -/
abbrev WriteSet := List (String × SWrite)

/-- The external key-value store, keyed by the pair of key kind byte and
key string, which models the byte-slice key
`append([]byte{byte(prefix)}, []byte(key)...)`. -/
structure Store where
  tbl : List ((Nat × String) × StateValue)
deriving DecidableEq, Repr

/-- The storage key built from a kind byte and a key string. -/
def mkKey (p : Nat) (key : String) : Nat × String := (p % 256, key)

/-- Model of `IStore.Get`. -/
def storeGet (s : Store) (k : Nat × String) : Option StateValue := alGet s.tbl k

/-- Model of `IStore.BatchPut` (overwrite semantics). -/
def storePut (s : Store) (k : Nat × String) (v : StateValue) : Store :=
  ⟨alSet s.tbl k v⟩

/-- Model of `IStore.BatchDelete`. -/
def storeDelete (s : Store) (k : Nat × String) : Store :=
  ⟨s.tbl.filter (fun kv => ¬ kv.1 = k)⟩

/-- Database error kinds; the store signals a missing key as
`ErrDBNotFound`. -/
inductive DBErr where
  | notFound
  | other (msg : String)
deriving DecidableEq, Repr

/-- Model of `DBCache`: the staged write set together with the underlying
store, threaded explicitly. -/
structure DBCache where
  writeSet : WriteSet
  store : Store
deriving DecidableEq, Repr

/-- Model of `NewDBCache`: a fresh session over a store. -/
def newDBCache (s : Store) : DBCache := ⟨[], s⟩

/-- Model of `DBCache.TryGetInternal`: read the store at the prefixed key
and parse the value (`states.GetStateValue`, modelled as the identity). -/
def tryGetInternal (c : DBCache) (p : Nat) (key : String) : Except DBErr StateValue :=
  match storeGet c.store (mkKey p key) with
  | none => Except.error DBErr.notFound
  | some v => Except.ok v

/-- Model of `DBCache.GetOrAdd`: a tombstoned entry is revived with the
supplied value; a missing entry is filled from the store, defaulting to the
supplied value when the store reports not-found; the staged item of the
entry is returned. -/
def getOrAdd (c : DBCache) (p : Nat) (key : String) (value : StateValue) :
    Except DBErr (Option StateValue × DBCache) :=
  match alGet c.writeSet key with
  | some w =>
    if w.isDeleted then
      let w2 : SWrite := { w with item := some value, isDeleted := false }
      Except.ok (w2.item, { c with writeSet := alSet c.writeSet key w2 })
    else Except.ok (w.item, c)
  | none =>
    match tryGetInternal c p key with
    | Except.error e =>
      if e = DBErr.notFound then
        let w : SWrite := { pfx := p, key := key, item := some value, isDeleted := false }
        Except.ok (w.item, { c with writeSet := alSet c.writeSet key w })
      else Except.error e
    | Except.ok it =>
      let w : SWrite := { pfx := p, key := key, item := some it, isDeleted := false }
      Except.ok (w.item, { c with writeSet := alSet c.writeSet key w })

/-- Model of `DBCache.TryGet`: the staged item when the write set holds the
key (whether or not tombstoned), else a read through to the store. -/
def tryGet (c : DBCache) (p : Nat) (key : String) : Except DBErr (Option StateValue) :=
  match alGet c.writeSet key with
  | some w => Except.ok w.item
  | none =>
    match tryGetInternal c p key with
    | Except.error e => Except.error e
    | Except.ok v => Except.ok (some v)

/-- The flush loop of `DBCache.Commit`: tombstoned entries become batched
deletes, live entries batched puts of the serialized item. A live entry
with a nil item would make the Go serialization call panic, modelled as a
distinguished error. -/
def commitLoop : List (String × SWrite) → Store → Except String Store
  | [], s => Except.ok s
  | kv :: rest, s =>
    if kv.2.isDeleted then commitLoop rest (storeDelete s (mkKey kv.2.pfx kv.1))
    else
      match kv.2.item with
      | none => Except.error "panic: nil state item"
      | some it => commitLoop rest (storePut s (mkKey kv.2.pfx kv.1) it)

/-- Model of `DBCache.Commit`. -/
def commit (c : DBCache) : Except String Store := commitLoop c.writeSet c.store

/-- Modelled from the spec: `RWSet.Delete` lives in
`smartcontract/storage`, which is not under `src/`. Per the specification,
`delete(key)` marks the write-set entry for `key` as deleted (tombstone)
without touching the external store, and a subsequent `get` observes a
not-found-equivalent result, so the tombstone clears the staged item. A
missing entry becomes a fresh tombstone. -/
def rwsetDelete (ws : WriteSet) (key : String) : WriteSet :=
  match alGet ws key with
  | some w => alSet ws key { w with item := none, isDeleted := true }
  | none => alSet ws key { pfx := 0, key := key, item := none, isDeleted := true }

/-- Deletion of a staged key within a cache session. -/
def cacheDelete (c : DBCache) (key : String) : DBCache :=
  { c with writeSet := rwsetDelete c.writeSet key }

/-- A result of `tryGet` that signals absence to the caller: either the
store not-found error or a staged tombstone whose item is nil. -/
def notFoundEquiv (r : Except DBErr (Option StateValue)) : Prop :=
  r = Except.error DBErr.notFound ∨ r = Except.ok none

/-! ## Specification-side quantities

The following definitions phrase the per-asset sums the specification talks
about; the claims compare them with the computations of the source. -/

/-- Sum of the `Value` fields of the resolved input references that carry
asset `a`. -/
def assetInputSum (refs : List (TxInput × TxOutput)) (a : Uint256) : Int :=
  ((refs.map Prod.snd).filter (fun o => decide (o.assetID = a))).foldl
    (fun acc o => acc + o.value) 0

/-- Sum of the `Value` fields of the outputs that carry asset `a`. -/
def assetOutputSum (outs : List TxOutput) (a : Uint256) : Int :=
  (outs.filter (fun o => decide (o.assetID = a))).foldl (fun acc o => acc + o.value) 0

/-- Sum of the `TokenValue` fields of the non-native resolved input
references. -/
def tokenInputSum (env : Env) (refs : List (TxInput × TxOutput)) : Int :=
  ((refs.map Prod.snd).filter (fun o => decide (¬ o.assetID = env.assetID))).foldl
    (fun acc o => acc + o.tokenValue) 0

/-- Sum of the `TokenValue` fields of the non-native outputs. -/
def tokenOutputSum (env : Env) (outs : List TxOutput) : Int :=
  (outs.filter (fun o => decide (¬ o.assetID = env.assetID))).foldl
    (fun acc o => acc + o.tokenValue) 0

/-- The assets appearing among the outputs. -/
def txOutAssets (outs : List TxOutput) : List Uint256 := outs.map (·.assetID)

/-- The assets appearing among the resolved input references. -/
def txRefAssets (refs : List (TxInput × TxOutput)) : List Uint256 :=
  refs.map (fun io => io.2.assetID)

/-- Sum of the `Value` fields of a list of outputs. -/
def outputValueSum (outs : List TxOutput) : Int :=
  outs.foldl (fun acc o => acc + o.value) 0

/-- The fee condition stated by the specification for `CheckTransactionFee`
(claim C1): the native balance, referenced native input values minus native
output values, meets the configured minimum (the cross-chain minimum for
cross-chain transactions), and the token balance across all non-native
assets nets to exactly zero. Spec-side definition, to be compared with the
source computation `checkTransactionFee`. -/
def specFeeCondition (env : Env) (refs : List (TxInput × TxOutput)) (tx : Transaction) :
    Prop :=
  assetInputSum refs env.assetID - assetOutputSum tx.outputs env.assetID ≥
      (if tx.isTransferCrossChainAssetTx ∨ tx.isRechargeToSideChainTx then
        env.minCrossChainTxFee
      else env.minTxFee) ∧
    tokenInputSum env refs - tokenOutputSum env tx.outputs = 0

/-- The expected recharge total of the specification (claim C4): the sum,
over every payload entry whose referenced main chain output targets the
genesis program hash, of the entry amount converted at the configured
exchange rate. Entries whose indexes fall outside their arrays contribute
nothing; the checker rejects such payloads before the total is compared. -/
def rechargeExpectedTotal (env : Env) (mainTx : MainTx) (pl : CCPayload) (gph : PHash) :
    Int :=
  (List.range pl.crossChainAddresses.length).foldl
    (fun acc i =>
      match pl.outputIndexes[i]?.bind (fun oi => mainTx.outputs[oi]?) with
      | some mo =>
        if mo.programHash = gph then
          match pl.crossChainAmounts[i]? with
          | some amt => acc + env.rateConv amt
          | none => acc
        else acc
      | none => acc)
    0

/-- Whether some two inputs of the list reference the same previous output
(the property quantified by claim C5). -/
def dupScan : List TxInput → Bool
  | [] => false
  | x :: rest => rest.any (fun y => decide (y.previous = x.previous)) || dupScan rest

/-- Agreement of two outputs on the fields `AssetID` and `Value` (claim
C10: the fee calculator reads only these two fields of an output). -/
def outValueAgree (o1 o2 : TxOutput) : Prop :=
  o1.assetID = o2.assetID ∧ o1.value = o2.value

/-- Agreement of two resolved reference results up to the `AssetID` and
`Value` fields of the referenced outputs. -/
def refsValueAgree :
    Option (List (TxInput × TxOutput)) → Option (List (TxInput × TxOutput)) → Prop
  | none, none => True
  | some l1, some l2 => List.Forall₂ (fun a b => outValueAgree a.2 b.2) l1 l2
  | _, _ => False

/-! ## Concrete chain parameters, ledger states and transactions used by the
counterexamples and witnesses -/

/-- A concrete set of chain parameters: the native asset is `1`, both fee
minima are `1`, the exchange-rate conversion is the identity, and the only
renderable address is the string `Addr` for the program hash `(33, 7)`. -/
def demoEnv : Env :=
  { assetID := 1
    foundationAddress := ⟨33, 900⟩
    maxBlockSize := 1000
    minTxFee := 1
    minCrossChainTxFee := 1
    exchangeRatePos := true
    rateConv := fun x => x
    coinbaseThresh := fun x => x * 3 / 10
    spendCoinbaseSpan := 100
    validAttrUsage := fun _ => true
    toProgramHashOk := fun _ => true
    verifySig := fun _ => true
    addrToPHash := fun s => if s = "Addr" then some ⟨33, 7⟩ else none
    pHashToAddr := fun ph => if ph = ⟨33, 7⟩ then some "Addr" else none
    minPrecision := 0
    maxPrecision := 18 }

/-- A concrete empty ledger state. -/
def demoLedger : Ledger :=
  { isTxHashDuplicate := fun _ => false
    isMainchainTxHashDuplicate := fun _ => false
    getAsset := fun _ => none
    getAssets := []
    getTxReference := fun _ => none
    getTransaction := fun _ => none
    getHeight := 1000
    isDoubleSpend := fun _ => false
    genesisProgramHash := none }

/-- Claim C1 failing input: one native output of value 2. -/
def c1Tx : Transaction :=
  { txType := TxType.transferAsset
    payload := Payload.transferAsset
    inputs := [⟨⟨7, 0⟩, 0⟩]
    outputs := [⟨1, 2, 0, ⟨33, 5⟩, 0⟩]
    attributes := []
    programs := []
    lockTime := 0
    txSize := 100
    txHash := 11 }

/-- Claim C1 failing input: the single input resolves to a native output of
value 3, so the specification fee is 3 - 2 = 1 = MinTxFee. -/
def c1Refs : List (TxInput × TxOutput) := [(⟨⟨7, 0⟩, 0⟩, ⟨1, 3, 0, ⟨33, 6⟩, 0⟩)]

/-- Ledger resolving the references of `c1Tx`. -/
def c1St : Ledger := { demoLedger with getTxReference := fun _ => some c1Refs }

/-- Claim C2 input: a transaction declared transfer-cross-chain-asset whose
payload is not a transfer-cross-chain payload, so the delegated check
fails; every subsequent context check passes. -/
def c2Tx : Transaction :=
  { txType := TxType.transferCrossChainAsset
    payload := Payload.transferAsset
    inputs := [⟨⟨9, 0⟩, 0⟩]
    outputs := []
    attributes := []
    programs := []
    lockTime := 0
    txSize := 100
    txHash := 12 }

/-- The transaction referenced by the input of `c2Tx`: a plain transfer
with one native output of value 100. -/
def c2RefTx : Transaction :=
  { txType := TxType.transferAsset
    payload := Payload.transferAsset
    inputs := [⟨⟨3, 0⟩, 0⟩]
    outputs := [⟨1, 100, 0, ⟨33, 8⟩, 0⟩]
    attributes := []
    programs := []
    lockTime := 0
    txSize := 100
    txHash := 9 }

/-- Ledger for claim C2: the input of `c2Tx` resolves to the output of
`c2RefTx` and nothing is duplicated, double-spent or locked. -/
def c2St : Ledger :=
  { demoLedger with
    getTxReference := fun _ => some [(⟨⟨9, 0⟩, 0⟩, ⟨1, 100, 0, ⟨33, 8⟩, 0⟩)]
    getTransaction := fun h => if h = 9 then some c2RefTx else none }

/-- Claim C4 payload: one entry of amount 5 paying the address `Addr`. -/
def c4Pl : CCPayload := ⟨["Addr"], [5], [0]⟩

/-- Claim C4 main chain transaction: one output of value 10 paying the
genesis program hash. -/
def c4MainTx : MainTx := ⟨[⟨10, ⟨1, 2⟩⟩], some c4Pl, 99⟩

/-- Claim C4 side chain transaction: one native output of value 5 paying
the program hash of `Addr`. -/
def c4Tx : Transaction :=
  { txType := TxType.rechargeToSideChain
    payload := Payload.rechargeToSideChain true (some c4MainTx)
    inputs := []
    outputs := [⟨1, 5, 0, ⟨33, 7⟩, 0⟩]
    attributes := []
    programs := []
    lockTime := 0
    txSize := 100
    txHash := 14 }

/-- Ledger for claim C4 with a known genesis program hash. -/
def c4St : Ledger := { demoLedger with genesisProgramHash := some ⟨1, 2⟩ }

/-- Claim C5 counterexample input: a recharge transaction whose two inputs
reference the same previous output. -/
def c5Tx : Transaction :=
  { txType := TxType.rechargeToSideChain
    payload := Payload.rechargeToSideChain true none
    inputs := [⟨⟨5, 0⟩, 0⟩, ⟨⟨5, 0⟩, 0⟩]
    outputs := [⟨1, 5, 0, ⟨33, 4⟩, 0⟩]
    attributes := []
    programs := []
    lockTime := 0
    txSize := 100
    txHash := 15 }

/-- Ledger for claim C5 in which the native asset is registered with
precision 8. -/
def c5St : Ledger :=
  { demoLedger with getAsset := fun a => if a = 1 then some ⟨"ELA", 8, 1⟩ else none }

/-- A non-recharge transaction with duplicated inputs (witness of the
amended claim C5). -/
def c5WTx : Transaction :=
  { txType := TxType.transferAsset
    payload := Payload.transferAsset
    inputs := [⟨⟨6, 1⟩, 0⟩, ⟨⟨6, 1⟩, 0⟩]
    outputs := [⟨1, 5, 0, ⟨33, 4⟩, 0⟩]
    attributes := []
    programs := []
    lockTime := 0
    txSize := 100
    txHash := 16 }

/-- A coinbase transaction (claim C6). -/
def c6Tx : Transaction :=
  { txType := TxType.coinBase
    payload := Payload.coinBase
    inputs := [⟨⟨0, 65535⟩, 0⟩]
    outputs := [⟨1, 70, 0, ⟨33, 4⟩, 0⟩, ⟨1, 30, 0, ⟨33, 900⟩, 0⟩]
    attributes := []
    programs := []
    lockTime := 0
    txSize := 100
    txHash := 17 }

/-- Ledger in which every transaction hash is already present (claim C6
counterexample). -/
def c6St : Ledger := { demoLedger with isTxHashDuplicate := fun _ => true }

/-- Claim C7 input: a transaction with one token output of asset 5. -/
def c7Tx : Transaction :=
  { txType := TxType.transferAsset
    payload := Payload.transferAsset
    inputs := [⟨⟨5, 0⟩, 0⟩]
    outputs := [⟨5, 0, 10, ⟨33, 1⟩, 0⟩]
    attributes := []
    programs := []
    lockTime := 0
    txSize := 100
    txHash := 18 }

/-- Ledger state in which asset 5 is registered with precision 18 (claim
C7): sanity accepts `c7Tx` here but rejects it against `demoLedger`. -/
def c7St : Ledger :=
  { demoLedger with getAsset := fun a => if a = 5 then some ⟨"TOK", 18, 5⟩ else none }

/-- A second ledger for the amended claim C7: it agrees with `c7St` on
every asset lookup but differs elsewhere. -/
def c7St2 : Ledger :=
  { c7St with getHeight := 5, isTxHashDuplicate := fun _ => true }

/-- Claim C8 input: one output of token asset 2 whose `TokenValue` 7 is not
divisible by `10^(18-17)` while its `Value` is 0. -/
def c8Out : TxOutput := ⟨2, 0, 7, ⟨33, 1⟩, 0⟩

/-- The registered declaration of asset 2 with precision 17 (claim C8). -/
def c8Asset : Asset := ⟨"TOK", 17, 2⟩

/-- Claim C8 transaction carrying `c8Out`. -/
def c8Tx : Transaction :=
  { txType := TxType.transferAsset
    payload := Payload.transferAsset
    inputs := [⟨⟨5, 0⟩, 0⟩]
    outputs := [c8Out]
    attributes := []
    programs := []
    lockTime := 0
    txSize := 100
    txHash := 19 }

/-- Ledger registering asset 2 with precision 17 (claim C8). -/
def c8St : Ledger :=
  { demoLedger with getAsset := fun a => if a = 2 then some c8Asset else none }

/-- Witness output for the amended claim C8: value 100 is divisible by
`10^(18-16)`. -/
def c8WOut : TxOutput := ⟨2, 100, 0, ⟨33, 1⟩, 0⟩

/-- Witness transaction for the amended claim C8. -/
def c8WTx : Transaction :=
  { c8Tx with outputs := [c8WOut], txHash := 20 }

/-- Witness ledger for the amended claim C8: asset 2 has precision 16. -/
def c8WSt : Ledger :=
  { demoLedger with getAsset := fun a => if a = 2 then some ⟨"TOK", 16, 2⟩ else none }

/-- Claim C9 witness transaction: one native output of value 3. -/
def c9Tx : Transaction :=
  { txType := TxType.transferAsset
    payload := Payload.transferAsset
    inputs := [⟨⟨7, 0⟩, 0⟩, ⟨⟨8, 0⟩, 0⟩]
    outputs := [⟨1, 3, 0, ⟨33, 1⟩, 0⟩]
    attributes := []
    programs := []
    lockTime := 0
    txSize := 100
    txHash := 21 }

/-- Claim C9 witness references: asset 1 contributes input value 5, asset 7
appears only among the inputs with value 2. -/
def c9Refs : List (TxInput × TxOutput) :=
  [(⟨⟨7, 0⟩, 0⟩, ⟨1, 5, 0, ⟨33, 2⟩, 0⟩), (⟨⟨8, 0⟩, 0⟩, ⟨7, 2, 0, ⟨33, 3⟩, 0⟩)]

/-- Ledger resolving the references of `c9Tx`. -/
def c9St : Ledger := { demoLedger with getTxReference := fun _ => some c9Refs }

/-- Claim C10 witness: `c9Tx` with the token values of its outputs changed. -/
def c10Tx : Transaction :=
  { c9Tx with outputs := [⟨1, 3, 55, ⟨33, 1⟩, 0⟩], txHash := 22 }

/-- Claim C10 witness references: `c9Refs` with token values changed. -/
def c10Refs : List (TxInput × TxOutput) :=
  [(⟨⟨7, 0⟩, 0⟩, ⟨1, 5, 44, ⟨33, 2⟩, 0⟩), (⟨⟨8, 0⟩, 0⟩, ⟨7, 2, 33, ⟨33, 3⟩, 0⟩)]

/-- Ledger resolving the references of `c10Tx`. -/
def c10St : Ledger := { demoLedger with getTxReference := fun _ => some c10Refs }

/-! ## Association list lemmas -/

theorem alGet_alSet_self {κ β : Type} [DecidableEq κ] (m : List (κ × β)) (k : κ) (v : β) :
    alGet (alSet m k v) k = some v := by
  induction m with
  | nil => simp [alGet, alSet]
  | cons kv rest ih =>
    by_cases h : kv.1 = k
    · simp [alSet, h, alGet]
    · simp [alSet, h, alGet, ih]

theorem alGet_alSet_ne {κ β : Type} [DecidableEq κ] (m : List (κ × β)) (k j : κ) (v : β)
    (h : j ≠ k) : alGet (alSet m k v) j = alGet m j := by
  induction m with
  | nil => simp [alGet, alSet, Ne.symm h]
  | cons kv rest ih =>
    by_cases hk : kv.1 = k
    · simp only [alSet, if_pos hk, alGet]
      rw [if_neg (fun h2 : k = j => h h2.symm),
        if_neg (fun h2 : kv.1 = j => h (hk.symm.trans h2).symm)]
    · simp only [alSet, if_neg hk, alGet, ih]

theorem mem_of_alGet {κ β : Type} [DecidableEq κ] (m : List (κ × β)) (k : κ) (b : β)
    (h : alGet m k = some b) : (k, b) ∈ m := by
  induction m with
  | nil => simp [alGet] at h
  | cons kv rest ih =>
    obtain ⟨a, c⟩ := kv
    by_cases hk : a = k
    · simp only [alGet, if_pos hk] at h
      injection h with h2
      subst hk
      subst h2
      exact List.mem_cons_self _ _
    · simp only [alGet, if_neg hk] at h
      exact List.mem_cons_of_mem _ (ih h)

theorem alGet_eq_none_iff {κ β : Type} [DecidableEq κ] (m : List (κ × β)) (k : κ) :
    alGet m k = none ↔ k ∉ alKeys m := by
  induction m with
  | nil => simp [alGet, alKeys]
  | cons kv rest ih =>
    by_cases hk : kv.1 = k
    · simp [alGet, hk, alKeys]
    · simp only [alGet, if_neg hk]
      rw [ih]
      simp only [alKeys, List.map_cons, List.mem_cons]
      constructor
      · intro h2 h3
        rcases h3 with h3 | h3
        · exact hk h3.symm
        · exact h2 h3
      · intro h2 h3
        exact h2 (Or.inr h3)

theorem alKeys_alSet {κ β : Type} [DecidableEq κ] (m : List (κ × β)) (k : κ) (v : β) :
    alKeys (alSet m k v) = if k ∈ alKeys m then alKeys m else alKeys m ++ [k] := by
  induction m with
  | nil => simp [alSet, alKeys]
  | cons kv rest ih =>
    by_cases hk : kv.1 = k
    · subst hk
      have hmem : kv.1 ∈ alKeys (kv :: rest) := by simp [alKeys]
      rw [if_pos hmem]
      simp [alSet, alKeys]
    · have hcons : alSet (kv :: rest) k v = kv :: alSet rest k v := by
        simp [alSet, hk]
      rw [hcons]
      have hkeys : alKeys (kv :: alSet rest k v) = kv.1 :: alKeys (alSet rest k v) := by
        simp [alKeys]
      rw [hkeys, ih]
      have hmemc : (k ∈ alKeys (kv :: rest)) ↔ (k ∈ alKeys rest) := by
        simp only [alKeys, List.map_cons, List.mem_cons]
        constructor
        · rintro (h3 | h3)
          · exact absurd h3.symm hk
          · exact h3
        · intro h3
          exact Or.inr h3
      by_cases hmem : k ∈ alKeys rest
      · rw [if_pos hmem, if_pos (hmemc.mpr hmem)]
        simp [alKeys]
      · rw [if_neg hmem, if_neg (fun hc => hmem (hmemc.mp hc))]
        simp [alKeys]

theorem nodup_alKeys_alSet {κ β : Type} [DecidableEq κ] (m : List (κ × β)) (k : κ) (v : β)
    (h : (alKeys m).Nodup) : (alKeys (alSet m k v)).Nodup := by
  rw [alKeys_alSet]
  by_cases hmem : k ∈ alKeys m
  · simpa [hmem] using h
  · simp only [if_neg hmem]
    simpa [List.nodup_append] using ⟨h, hmem⟩

/-! ## Lemmas about the check loops -/

theorem eachCheck_ok_iff {α : Type} (f : α → Except String Unit) (l : List α) :
    eachCheck f l = Except.ok () ↔ ∀ x ∈ l, f x = Except.ok () := by
  induction l with
  | nil => simp [eachCheck]
  | cons x rest ih =>
    simp only [eachCheck]
    cases hfx : f x with
    | error e => simp [hfx]
    | ok u => cases u; simp [hfx, ih]

theorem eachCheck_congr {α : Type} (f g : α → Except String Unit) (l : List α)
    (h : ∀ x ∈ l, f x = g x) : eachCheck f l = eachCheck g l := by
  induction l with
  | nil => rfl
  | cons x rest ih =>
    simp only [eachCheck, h x (by simp)]
    cases g x with
    | error e => rfl
    | ok u => exact ih (fun y hy => h y (by simp [hy]))

/-! ## Lemmas about the map-building folds of the fee calculator -/

theorem alGet_feeAccum_self (m : List (Uint256 × Int)) (k : Uint256) (v : Int) :
    alGet (feeAccum m k v) k = some ((alGet m k).getD 0 + v) := by
  unfold feeAccum
  cases h : alGet m k with
  | none => simp [alGet_alSet_self]
  | some a => simp [alGet_alSet_self]

theorem alGet_feeAccum_of_ne (m : List (Uint256 × Int)) (k j : Uint256) (v : Int)
    (h : j ≠ k) : alGet (feeAccum m k v) j = alGet m j := by
  unfold feeAccum
  cases h2 : alGet m k with
  | none => exact alGet_alSet_ne _ _ _ _ h
  | some a => exact alGet_alSet_ne _ _ _ _ h

theorem nodup_alKeys_feeAccum (m : List (Uint256 × Int)) (k : Uint256) (v : Int)
    (h : (alKeys m).Nodup) : (alKeys (feeAccum m k v)).Nodup := by
  unfold feeAccum
  cases alGet m k with
  | none => exact nodup_alKeys_alSet _ _ _ h
  | some a => exact nodup_alKeys_alSet _ _ _ h

/-- Lookup after the per-asset sum-building fold: the result at key `k` is
the fold of the matching values over the initial lookup. -/
theorem alGet_sumFold {α : Type} (key : α → Uint256) (val : α → Int) (l : List α)
    (m : List (Uint256 × Int)) (k : Uint256) :
    alGet (l.foldl (fun m2 x => feeAccum m2 (key x) (val x)) m) k =
      (l.filter (fun x => decide (key x = k))).foldl
        (fun ob x => some (ob.getD 0 + val x)) (alGet m k) := by
  induction l generalizing m with
  | nil => simp
  | cons x rest ih =>
    simp only [List.foldl_cons, List.filter_cons]
    by_cases hx : key x = k
    · subst hx
      rw [ih, alGet_feeAccum_self]
      simp [List.foldl_cons]
    · rw [ih, alGet_feeAccum_of_ne _ _ _ _ (fun h2 => hx h2.symm)]
      simp [hx]

theorem nodup_alKeys_sumFold {α : Type} (key : α → Uint256) (val : α → Int) (l : List α)
    (m : List (Uint256 × Int)) (h : (alKeys m).Nodup) :
    (alKeys (l.foldl (fun m2 x => feeAccum m2 (key x) (val x)) m)).Nodup := by
  induction l generalizing m with
  | nil => exact h
  | cons x rest ih => exact ih _ (nodup_alKeys_feeAccum _ _ _ h)

theorem optFold_some {α : Type} (val : α → Int) (fl : List α) (a : Int) :
    fl.foldl (fun ob x => some (ob.getD 0 + val x)) (some a) =
      some (fl.foldl (fun acc x => acc + val x) a) := by
  induction fl generalizing a with
  | nil => rfl
  | cons x rest ih =>
    simp only [List.foldl_cons, Option.getD_some]
    exact ih _

theorem optFold_none_cons {α : Type} (val : α → Int) (x : α) (rest : List α) :
    (x :: rest).foldl (fun ob y => some (ob.getD 0 + val y)) none =
      some ((x :: rest).foldl (fun acc y => acc + val y) 0) := by
  simp only [List.foldl_cons, Option.getD_none, optFold_some]

theorem foldl_add_shift {α : Type} (val : α → Int) (l : List α) (a : Int) :
    l.foldl (fun acc x => acc + val x) a = a + l.foldl (fun acc x => acc + val x) 0 := by
  induction l generalizing a with
  | nil => simp
  | cons x rest ih =>
    simp only [List.foldl_cons]
    rw [ih (a + val x), ih (0 + val x)]
    ring

/-! ## Lemmas about the grouping fold of the precision check -/

theorem alGet_groupStep_self (m : List (Uint256 × List TxOutput)) (o : TxOutput) :
    alGet (groupStep m o) o.assetID = some ((alGet m o.assetID).getD [] ++ [o]) := by
  unfold groupStep
  cases h : alGet m o.assetID with
  | none => simp [alGet_alSet_self]
  | some g => simp [alGet_alSet_self]

theorem alGet_groupStep_of_ne (m : List (Uint256 × List TxOutput)) (o : TxOutput)
    (j : Uint256) (h : j ≠ o.assetID) : alGet (groupStep m o) j = alGet m j := by
  unfold groupStep
  cases h2 : alGet m o.assetID with
  | none => exact alGet_alSet_ne _ _ _ _ h
  | some g => exact alGet_alSet_ne _ _ _ _ h

theorem alGet_groupFold (l : List TxOutput) (m : List (Uint256 × List TxOutput))
    (k : Uint256) :
    alGet (l.foldl groupStep m) k =
      (l.filter (fun o => decide (o.assetID = k))).foldl
        (fun og o => some (og.getD [] ++ [o])) (alGet m k) := by
  induction l generalizing m with
  | nil => simp
  | cons x rest ih =>
    simp only [List.foldl_cons, List.filter_cons]
    by_cases hx : x.assetID = k
    · subst hx
      rw [ih, alGet_groupStep_self]
      simp [List.foldl_cons]
    · rw [ih, alGet_groupStep_of_ne _ _ _ (fun h2 => hx h2.symm)]
      simp [hx]

theorem groupOptFold_some (fl : List TxOutput) (g : List TxOutput) :
    fl.foldl (fun og o => some (og.getD [] ++ [o])) (some g) = some (g ++ fl) := by
  induction fl generalizing g with
  | nil => simp
  | cons x rest ih =>
    simp only [List.foldl_cons, Option.getD_some]
    rw [ih]
    simp

theorem alGet_groupOutputs (l : List TxOutput) (k : Uint256) :
    alGet (groupOutputs l) k =
      if (l.filter (fun o => decide (o.assetID = k))) = [] then none
      else some (l.filter (fun o => decide (o.assetID = k))) := by
  unfold groupOutputs
  rw [alGet_groupFold]
  cases hfil : l.filter (fun o => decide (o.assetID = k)) with
  | nil => simp [hfil, alGet]
  | cons x rest => simp [hfil, alGet, groupOptFold_some]

/-! ## Lookup lemmas for the per-asset sum maps of the fee calculator -/

theorem filter_map_snd (refs : List (TxInput × TxOutput)) (a : Uint256) :
    (refs.map Prod.snd).filter (fun o => decide (o.assetID = a)) =
      (refs.filter (fun io => decide (io.2.assetID = a))).map Prod.snd := by
  induction refs with
  | nil => rfl
  | cons io rest ih =>
    simp only [List.map_cons, List.filter_cons]
    by_cases h : io.2.assetID = a
    · simp [h, ih]
    · simp [h, ih]

theorem assetInputSum_eq_pair_fold (refs : List (TxInput × TxOutput)) (a : Uint256) :
    assetInputSum refs a =
      (refs.filter (fun io => decide (io.2.assetID = a))).foldl
        (fun acc io => acc + io.2.value) 0 := by
  unfold assetInputSum
  rw [filter_map_snd, List.foldl_map]

/-- Lookup in the per-asset input sum map built by `GetTxFeeMap`. -/
theorem alGet_inputSums (refs : List (TxInput × TxOutput)) (a : Uint256) :
    alGet (refs.foldl (fun m io => feeAccum m io.2.assetID io.2.value) []) a =
      if (refs.filter (fun io => decide (io.2.assetID = a))) = [] then none
      else some (assetInputSum refs a) := by
  have h := alGet_sumFold (fun io : TxInput × TxOutput => io.2.assetID)
    (fun io => io.2.value) refs [] a
  simp only [alGet] at h
  rw [h]
  cases hfil : refs.filter (fun io => decide (io.2.assetID = a)) with
  | nil => simp [hfil]
  | cons x rest =>
    rw [if_neg (by simp [hfil])]
    rw [optFold_none_cons, assetInputSum_eq_pair_fold, hfil]

/-- Lookup in the per-asset output sum map built by `GetTxFeeMap`. -/
theorem alGet_outputSums (outs : List TxOutput) (a : Uint256) :
    alGet (outs.foldl (fun m o => feeAccum m o.assetID o.value) []) a =
      if (outs.filter (fun o => decide (o.assetID = a))) = [] then none
      else some (assetOutputSum outs a) := by
  have h := alGet_sumFold (fun o : TxOutput => o.assetID) (fun o => o.value) outs [] a
  simp only [alGet] at h
  rw [h]
  cases hfil : outs.filter (fun o => decide (o.assetID = a)) with
  | nil => simp [hfil]
  | cons x rest =>
    rw [if_neg (by simp [hfil])]
    rw [optFold_none_cons]
    unfold assetOutputSum
    rw [hfil]

theorem mem_txOutAssets_iff (outs : List TxOutput) (a : Uint256) :
    a ∈ txOutAssets outs ↔ (outs.filter (fun o => decide (o.assetID = a))) ≠ [] := by
  simp only [txOutAssets, List.mem_map, Ne, List.filter_eq_nil_iff]
  constructor
  · rintro ⟨o, ho, rfl⟩ h2
    exact h2 o ho (by simp)
  · intro h2
    by_contra hne
    apply h2
    intro o ho
    simp only [decide_eq_true_eq]
    intro he
    exact hne ⟨o, ho, he⟩

theorem mem_txRefAssets_iff (refs : List (TxInput × TxOutput)) (a : Uint256) :
    a ∈ txRefAssets refs ↔
      (refs.filter (fun io => decide (io.2.assetID = a))) ≠ [] := by
  simp only [txRefAssets, List.mem_map, Ne, List.filter_eq_nil_iff]
  constructor
  · rintro ⟨io, hio, rfl⟩ h2
    exact h2 io hio (by simp)
  · intro h2
    by_contra hne
    apply h2
    intro io hio
    simp only [decide_eq_true_eq]
    intro he
    exact hne ⟨io, hio, he⟩

/-! ## Lemmas about the two combination loops of the fee calculator -/

theorem alGet_feeStep3_of_ne (inputs fm : List (Uint256 × Int)) (kv : Uint256 × Int)
    (k : Uint256) (h : k ≠ kv.1) : alGet (feeStep3 inputs fm kv) k = alGet fm k := by
  unfold feeStep3
  cases alGet inputs kv.1 with
  | none => exact alGet_alSet_ne _ _ _ _ h
  | some iv => exact alGet_alSet_ne _ _ _ _ h

theorem alGet_feeStep3_self (inputs fm : List (Uint256 × Int)) (kv : Uint256 × Int)
    (hfm : alGet fm kv.1 = none) :
    alGet (feeStep3 inputs fm kv) kv.1 = some ((alGet inputs kv.1).getD 0 - kv.2) := by
  unfold feeStep3
  cases hin : alGet inputs kv.1 with
  | none => simp [alGet_alSet_self, hfm]
  | some iv => simp [alGet_alSet_self]

theorem phase3_fold_get_notmem (inputs L fm : List (Uint256 × Int)) (k : Uint256)
    (h : k ∉ alKeys L) : alGet (L.foldl (feeStep3 inputs) fm) k = alGet fm k := by
  induction L generalizing fm with
  | nil => rfl
  | cons kv rest ih =>
    simp only [alKeys, List.map_cons, List.mem_cons, not_or] at h
    simp only [List.foldl_cons]
    rw [ih _ (by simpa [alKeys] using h.2)]
    exact alGet_feeStep3_of_ne _ _ _ _ h.1

theorem phase3_fold_get_mem (inputs L fm : List (Uint256 × Int)) (k : Uint256) (v : Int)
    (hnd : (alKeys L).Nodup) (hmem : (k, v) ∈ L) (hfm : alGet fm k = none) :
    alGet (L.foldl (feeStep3 inputs) fm) k = some ((alGet inputs k).getD 0 - v) := by
  induction L generalizing fm with
  | nil => simp at hmem
  | cons kv rest ih =>
    simp only [alKeys, List.map_cons, List.nodup_cons] at hnd
    simp only [List.foldl_cons]
    rcases List.mem_cons.mp hmem with heq | htail
    · subst heq
      have hrest : k ∉ alKeys rest := by simpa [alKeys] using hnd.1
      rw [phase3_fold_get_notmem _ _ _ _ hrest]
      exact alGet_feeStep3_self _ _ _ hfm
    · have hkrest : k ∈ alKeys rest := by
        simpa [alKeys] using List.mem_map_of_mem (fun p => p.1) htail
      have hk : k ≠ kv.1 := by
        intro he
        rw [he] at hkrest
        exact hnd.1 (by simpa [alKeys] using hkrest)
      exact ih _ (by simpa [alKeys] using hnd.2) htail
        (by rw [alGet_feeStep3_of_ne _ _ _ _ hk]; exact hfm)

theorem alGet_feeStep4_preserve (fm : List (Uint256 × Int)) (kv : Uint256 × Int)
    (k : Uint256) (x : Int) (h : alGet fm k = some x) :
    alGet (feeStep4 fm kv) k = some x := by
  unfold feeStep4
  by_cases hs : (alGet fm kv.1).isSome
  · simp [hs, h]
  · rw [if_neg hs]
    by_cases hk : k = kv.1
    · rw [hk] at h
      rw [h] at hs
      simp at hs
    · rw [alGet_alSet_ne _ _ _ _ hk]
      exact h

theorem phase4_fold_preserve (L fm : List (Uint256 × Int)) (k : Uint256) (x : Int)
    (h : alGet fm k = some x) : alGet (L.foldl feeStep4 fm) k = some x := by
  induction L generalizing fm with
  | nil => exact h
  | cons kv rest ih =>
    simp only [List.foldl_cons]
    exact ih _ (alGet_feeStep4_preserve _ _ _ _ h)

theorem phase4_fold_new (L fm : List (Uint256 × Int)) (k : Uint256) (v : Int)
    (hnd : (alKeys L).Nodup) (hmem : (k, v) ∈ L) (hfm : alGet fm k = none) :
    alGet (L.foldl feeStep4 fm) k = some v := by
  induction L generalizing fm with
  | nil => simp at hmem
  | cons kv rest ih =>
    simp only [alKeys, List.map_cons, List.nodup_cons] at hnd
    simp only [List.foldl_cons]
    rcases List.mem_cons.mp hmem with heq | htail
    · subst heq
      have hstep : alGet (feeStep4 fm (k, v)) k = some v := by
        unfold feeStep4
        rw [show alGet fm (k, v).1 = none from hfm]
        simp [alGet_alSet_self]
      exact phase4_fold_preserve _ _ _ _ hstep
    · have hkrest : k ∈ alKeys rest := by
        simpa [alKeys] using List.mem_map_of_mem (fun p => p.1) htail
      have hk : k ≠ kv.1 := by
        intro he
        rw [he] at hkrest
        exact hnd.1 (by simpa [alKeys] using hkrest)
      have hstep : alGet (feeStep4 fm kv) k = none := by
        unfold feeStep4
        by_cases hs : (alGet fm kv.1).isSome
        · simp [hs, hfm]
        · rw [if_neg hs, alGet_alSet_ne _ _ _ _ hk]
          exact hfm
      exact ih _ (by simpa [alKeys] using hnd.2) htail hstep

/-! ## Lemmas about the duplicate-input loop -/

theorem dupInLoop_err (l : List TxInput) : ∀ seen : List TxInput,
    ((∃ x ∈ l, ∃ y ∈ seen, y.previous = x.previous) ∨ dupScan l = true) →
    ∃ e, dupInLoop seen l = Except.error e := by
  induction l with
  | nil =>
    intro seen h
    rcases h with ⟨x, hx, _⟩ | h2
    · simp at hx
    · simp [dupScan] at h2
  | cons x rest ih =>
    intro seen h
    unfold dupInLoop
    by_cases hsent : x.previous.txid = emptyHash ∧ x.previous.index = 65535
    · exact ⟨_, by rw [if_pos hsent]⟩
    · rw [if_neg hsent]
      by_cases hany : seen.any (fun y => decide (y.previous = x.previous)) = true
      · exact ⟨_, by rw [if_pos hany]⟩
      · rw [if_neg hany]
        apply ih
        rcases h with ⟨a, ha, y, hy, hyp⟩ | h2
        · rcases List.mem_cons.mp ha with rfl | ha2
          · exfalso
            apply hany
            rw [List.any_eq_true]
            exact ⟨y, hy, by simp [hyp]⟩
          · exact Or.inl ⟨a, ha2, y, List.mem_append_left _ hy, hyp⟩
        · unfold dupScan at h2
          rcases Bool.or_eq_true_iff.mp h2 with hfst | hsnd
          · obtain ⟨z, hz, hzp⟩ := List.any_eq_true.mp hfst
            exact Or.inl ⟨z, hz, x, List.mem_append_right _ (by simp),
              (of_decide_eq_true hzp).symm⟩
          · exact Or.inr hsnd

theorem checkTransactionInput_err_of_dup (tx : Transaction)
    (hdup : dupScan tx.inputs = true) (hrec : tx.isRechargeToSideChainTx = false) :
    ∃ e, checkTransactionInput tx = Except.error e := by
  unfold checkTransactionInput
  by_cases hcb : tx.isCoinBaseTx = true
  · rw [if_pos hcb]
    rcases htx : tx.inputs with _ | ⟨i0, _ | ⟨i1, rest⟩⟩
    · rw [htx] at hdup
      simp [dupScan] at hdup
    · rw [htx] at hdup
      simp [dupScan] at hdup
    · exact ⟨_, rfl⟩
  · rw [if_neg hcb, if_neg (by rw [hrec]; simp)]
    by_cases hlen : tx.inputs.length = 0
    · rw [if_pos hlen]
      exact ⟨_, rfl⟩
    · rw [if_neg hlen]
      exact dupInLoop_err tx.inputs [] (Or.inr hdup)

/-! ## Congruence of the sanity phase in the ledger argument -/

theorem checkAssetPrecision_congr (env : Env) (s1 s2 : Ledger) (tx : Transaction)
    (h : ∀ a, s1.getAsset a = s2.getAsset a) :
    checkAssetPrecision env s1 tx = checkAssetPrecision env s2 tx := by
  unfold checkAssetPrecision
  by_cases h1 : tx.txType = TxType.registerAsset
  · rw [if_pos h1, if_pos h1]
  · rw [if_neg h1, if_neg h1]
    by_cases h2 : tx.outputs.length = 0
    · rw [if_pos h2, if_pos h2]
    · rw [if_neg h2, if_neg h2]
      apply eachCheck_congr
      intro kv _
      rw [h kv.1]

/-! ## Lemmas about the recharge loops -/

theorem rechargeEntryLoop_ok (env : Env) (tx : Transaction) (mainTx : MainTx)
    (pl : CCPayload) (gph : PHash) : ∀ (idxs : List Nat) (acc r : Int),
    rechargeEntryLoop env tx mainTx pl gph idxs acc = Except.ok r →
    r = idxs.foldl
      (fun acc2 i =>
        match pl.outputIndexes[i]?.bind (fun oi => mainTx.outputs[oi]?) with
        | some mo =>
          if mo.programHash = gph then
            match pl.crossChainAmounts[i]? with
            | some amt => acc2 + env.rateConv amt
            | none => acc2
          else acc2
        | none => acc2)
      acc := by
  intro idxs
  induction idxs with
  | nil =>
    intro acc r h
    unfold rechargeEntryLoop at h
    injection h with h2
    rw [← h2]
    rfl
  | cons i rest ih =>
    intro acc r h
    unfold rechargeEntryLoop at h
    simp only [List.foldl_cons]
    cases hoi : pl.outputIndexes[i]? with
    | none => simp [hoi] at h
    | some oi =>
      simp only [hoi, Option.some_bind] at h ⊢
      cases hmo : mainTx.outputs[oi]? with
      | none => simp [hmo] at h
      | some mo =>
        simp only [hmo] at h ⊢
        by_cases hgen : mo.programHash = gph
        · simp only [if_pos hgen] at h ⊢
          cases hamt : pl.crossChainAmounts[i]? with
          | none => simp [hamt] at h
          | some amt =>
            simp only [hamt] at h ⊢
            by_cases hbound : amt < 0 ∨ amt > mo.value - env.minCrossChainTxFee
            · rw [if_pos hbound] at h
              cases h
            · rw [if_neg hbound] at h
              cases haddr : pl.crossChainAddresses[i]? with
              | none => simp [haddr] at h
              | some addr =>
                simp only [haddr] at h
                cases hph : env.addrToPHash addr with
                | none => simp [hph] at h
                | some ph =>
                  simp only [hph] at h
                  by_cases hcont : tx.outputs.any
                      (fun o => decide (o.programHash = ph ∧ o.value = env.rateConv amt)) = true
                  · rw [if_pos hcont] at h
                    exact ih _ _ h
                  · rw [if_neg hcont] at h
                    cases h
        · simp only [if_neg hgen] at h ⊢
          exact ih _ _ h

theorem rechargeTargetLoop_ok : ∀ (outs : List TxOutput) (acc r : Int),
    rechargeTargetLoop outs acc = Except.ok r →
    r = outs.foldl (fun a o => a + o.value) acc := by
  intro outs
  induction outs with
  | nil =>
    intro acc r h
    unfold rechargeTargetLoop at h
    injection h with h2
    rw [← h2]
    rfl
  | cons o rest ih =>
    intro acc r h
    unfold rechargeTargetLoop at h
    by_cases hneg : o.value < 0
    · rw [if_pos hneg] at h; cases h
    · rw [if_neg hneg] at h
      simp only [List.foldl_cons]
      exact ih _ _ h

/-! ## Congruence of the fee calculator folds in the token values (claim
C10 machinery) -/

theorem feeAccum_fold_outs_congr (l1 l2 : List TxOutput)
    (h : List.Forall₂ outValueAgree l1 l2) :
    ∀ m, l1.foldl (fun m o => feeAccum m o.assetID o.value) m =
      l2.foldl (fun m o => feeAccum m o.assetID o.value) m := by
  induction h with
  | nil => intro m; rfl
  | @cons x y l1t l2t hxy hrest ih =>
    intro m
    simp only [List.foldl_cons]
    rw [show feeAccum m x.assetID x.value = feeAccum m y.assetID y.value from by
      rw [hxy.1, hxy.2]]
    exact ih _

theorem feeAccum_fold_refs_congr (l1 l2 : List (TxInput × TxOutput))
    (h : List.Forall₂ (fun a b => outValueAgree a.2 b.2) l1 l2) :
    ∀ m, l1.foldl (fun m io => feeAccum m io.2.assetID io.2.value) m =
      l2.foldl (fun m io => feeAccum m io.2.assetID io.2.value) m := by
  induction h with
  | nil => intro m; rfl
  | @cons x y l1t l2t hxy hrest ih =>
    intro m
    simp only [List.foldl_cons]
    rw [show feeAccum m x.2.assetID x.2.value = feeAccum m y.2.assetID y.2.value from by
      rw [hxy.1, hxy.2]]
    exact ih _

/-! ## The claims -/

/-- Claim C1 (code_bug): the specification says `CheckTransactionFee`
succeeds exactly when the native balance (referenced native inputs minus
native outputs) meets the configured minimum and the token balance nets to
zero. The source accumulates the transaction outputs twice (two identical
loops over `txn.Outputs`), so on `c1Tx` - whose specification balance is
3 - 2 = 1 = MinTxFee and whose token balance is zero - the check
nevertheless fails: the code computes 3 - 4 = -1 < 1. -/
theorem c1_fee_outputs_double_counted :
    specFeeCondition demoEnv c1Refs c1Tx ∧
    c1St.getTxReference c1Tx = some c1Refs ∧
    checkTransactionFee demoEnv c1St c1Tx =
      Except.error "transaction fee is not enough" :=
  ⟨by unfold specFeeCondition; decide, rfl, rfl⟩

/-- Claim C2 (counterexample): on `c2Tx` the transfer-cross-chain check
fails while every subsequent context check (double spend, UTXO lock, fee,
referenced outputs) passes, yet `CheckTransactionContext` returns
`ErrInvalidOutput` rather than the verdict of the subsequent checks: the
failure does early-return, contradicting the claim. -/
theorem c2_transfer_failure_not_skipped_counterexample :
    c2Tx.isTransferCrossChainAssetTx = true ∧
    (checkTransferCrossChainAssetTransaction demoEnv c2St c2Tx).isOk = false ∧
    c2St.isDoubleSpend c2Tx = false ∧
    checkTransactionUTXOLock c2St c2Tx = Except.ok () ∧
    checkTransactionFee demoEnv c2St c2Tx = Except.ok () ∧
    checkReferencedOutputs demoEnv c2St c2Tx = ErrCode.success ∧
    checkTransactionContext demoEnv c2St c2Tx = ErrCode.errInvalidOutput :=
  ⟨rfl, rfl, rfl, rfl, rfl, rfl, rfl⟩

/-- Claim C2 (amended): when a transfer-cross-chain-asset transaction
reaches its branch of `CheckTransactionContext` (hash not duplicated, not
coinbase, signature valid, not recharge) and
`CheckTransferCrossChainAssetTransaction` fails, the context check returns
`ErrInvalidOutput` immediately; the subsequent checks do not run. -/
theorem c2_transfer_failure_returns_invalid_output (env : Env) (st : Ledger)
    (tx : Transaction)
    (hdup : st.isTxHashDuplicate tx.txHash = false)
    (hcb : tx.isCoinBaseTx = false)
    (hsig : env.verifySig tx = true)
    (hrec : tx.isRechargeToSideChainTx = false)
    (htcc : tx.isTransferCrossChainAssetTx = true)
    (hfail : (checkTransferCrossChainAssetTransaction env st tx).isOk = false) :
    checkTransactionContext env st tx = ErrCode.errInvalidOutput := by
  simp [checkTransactionContext, hdup, hcb, hsig, hrec, htcc, hfail]

/-- Claim C2 witness: the amended theorem applied at the concrete input. -/
theorem c2_transfer_failure_returns_invalid_output_witness :
    checkTransactionContext demoEnv c2St c2Tx = ErrCode.errInvalidOutput :=
  c2_transfer_failure_returns_invalid_output demoEnv c2St c2Tx rfl rfl rfl rfl rfl rfl

/-- Claim C5 (counterexample): a recharge-to-side-chain transaction whose
two inputs reference the same previous output passes the whole sanity
phase, because `CheckTransactionInput` exempts recharge transactions from
the input check; the universal claim fails. -/
theorem c5_recharge_dup_inputs_accepted_counterexample :
    dupScan c5Tx.inputs = true ∧
    checkTransactionSanity demoEnv c5St c5Tx = ErrCode.success :=
  ⟨rfl, rfl⟩

/-- Claim C5 (amended): every transaction that is not a
recharge-to-side-chain transaction, passes the size check, and has two
inputs referencing the same previous output is rejected by the sanity
phase with `ErrInvalidInput`. -/
theorem c5_dup_inputs_rejected_nonrecharge (env : Env) (st : Ledger) (tx : Transaction)
    (hsize : checkTransactionSize env tx = Except.ok ())
    (hdup : dupScan tx.inputs = true)
    (hrec : tx.isRechargeToSideChainTx = false) :
    checkTransactionSanity env st tx = ErrCode.errInvalidInput := by
  unfold checkTransactionSanity
  rw [hsize]
  obtain ⟨e, he⟩ := checkTransactionInput_err_of_dup tx hdup hrec
  rw [he]

/-- Claim C5 witness: the amended theorem applied at the concrete input. -/
theorem c5_dup_inputs_rejected_nonrecharge_witness :
    checkTransactionSanity demoEnv demoLedger c5WTx = ErrCode.errInvalidInput :=
  c5_dup_inputs_rejected_nonrecharge demoEnv demoLedger c5WTx rfl rfl rfl

/-- Claim C6 (counterexample): `CheckTransactionContext` checks hash
duplication before the coinbase early accept, so on a ledger that reports
the hash as duplicate a coinbase transaction is rejected with
`ErrTxHashDuplicate`, not accepted regardless of ledger state. -/
theorem c6_coinbase_duplicate_hash_counterexample :
    c6Tx.isCoinBaseTx = true ∧
    checkTransactionContext demoEnv c6St c6Tx = ErrCode.errTxHashDuplicate ∧
    ErrCode.errTxHashDuplicate ≠ ErrCode.success :=
  ⟨rfl, rfl, by decide⟩

/-- Claim C6 (amended): a coinbase transaction whose hash is not already in
the ledger is accepted by `CheckTransactionContext` with no further
checks. -/
theorem c6_coinbase_context_success (env : Env) (st : Ledger) (tx : Transaction)
    (hcb : tx.isCoinBaseTx = true)
    (hdup : st.isTxHashDuplicate tx.txHash = false) :
    checkTransactionContext env st tx = ErrCode.success := by
  simp [checkTransactionContext, hcb, hdup]

/-- Claim C6 witness: the amended theorem applied at the concrete input. -/
theorem c6_coinbase_context_success_witness :
    checkTransactionContext demoEnv demoLedger c6Tx = ErrCode.success :=
  c6_coinbase_context_success demoEnv demoLedger c6Tx rfl rfl

/-- Claim C7 (counterexample): the sanity phase consults the ledger asset
registry through `CheckAssetPrecision`, so the same transaction receives
different verdicts against two ledger states: it is rejected with
`ErrAssetPrecision` where asset 5 is unregistered and accepted where it is
registered. The two-state determinism claim fails. -/
theorem c7_sanity_state_dependent_counterexample :
    checkTransactionSanity demoEnv demoLedger c7Tx = ErrCode.errAssetPrecision ∧
    checkTransactionSanity demoEnv c7St c7Tx = ErrCode.success ∧
    checkTransactionSanity demoEnv demoLedger c7Tx ≠
      checkTransactionSanity demoEnv c7St c7Tx :=
  ⟨rfl, rfl, by decide⟩

/-- Claim C7 (amended): the sanity phase depends on ledger state only
through the asset registry lookup of the precision check: any two ledger
states that agree on `GetAsset` yield the same sanity verdict for every
transaction. -/
theorem c7_sanity_depends_only_on_asset_lookup (env : Env) (s1 s2 : Ledger)
    (tx : Transaction) (h : ∀ a, s1.getAsset a = s2.getAsset a) :
    checkTransactionSanity env s1 tx = checkTransactionSanity env s2 tx := by
  unfold checkTransactionSanity
  rw [checkAssetPrecision_congr env s1 s2 tx h]

/-- Claim C7 witness: the amended theorem applied to two concrete states
that agree on asset lookups but differ in height and hash duplication. -/
theorem c7_sanity_depends_only_on_asset_lookup_witness :
    checkTransactionSanity demoEnv c7St c7Tx = checkTransactionSanity demoEnv c7St2 c7Tx :=
  c7_sanity_depends_only_on_asset_lookup demoEnv c7St c7St2 c7Tx (fun _ => rfl)

/-- Claim C8 (counterexample): the output `c8Out` carries token amount 7,
which is not divisible by `10^(18-17)` for its asset precision 17, yet
`CheckAssetPrecision` accepts the transaction: the check tests the
fixed-point `Value` field (here 0), never `TokenValue`. -/
theorem c8_token_value_unchecked_counterexample :
    c8Out ∈ c8Tx.outputs ∧
    c8Out.assetID ≠ demoEnv.assetID ∧
    c8St.getAsset c8Out.assetID = some c8Asset ∧
    ¬ (c8Out.tokenValue % ((10 : Int) ^ (18 - c8Asset.precision)) = 0) ∧
    checkAssetPrecision demoEnv c8St c8Tx = Except.ok () :=
  ⟨by decide, by decide, rfl, by decide, rfl⟩

/-- Claim C8 (amended): for a transaction that is not a register-asset
transaction, `CheckAssetPrecision` accepts only if every non-native output
has its asset registered and its fixed-point `Value` field divisible by
`10^(18 - precision)`; the big-integer `TokenValue` field is not examined
(see the counterexample). -/
theorem c8_value_field_precision (env : Env) (st : Ledger) (tx : Transaction)
    (o : TxOutput)
    (hreg : tx.txType ≠ TxType.registerAsset)
    (hmem : o ∈ tx.outputs)
    (hna : o.assetID ≠ env.assetID)
    (hok : checkAssetPrecision env st tx = Except.ok ()) :
    ∃ asset, st.getAsset o.assetID = some asset ∧
      o.value % ((10 : Int) ^ (18 - asset.precision)) = 0 := by
  unfold checkAssetPrecision at hok
  rw [if_neg hreg] at hok
  have hlen : ¬ tx.outputs.length = 0 := by
    intro h0
    rw [List.length_eq_zero] at h0
    rw [h0] at hmem
    simp at hmem
  rw [if_neg hlen] at hok
  have hfil : o ∈ tx.outputs.filter (fun o2 => decide (o2.assetID = o.assetID)) := by
    rw [List.mem_filter]
    exact ⟨hmem, by simp⟩
  have hfne : tx.outputs.filter (fun o2 => decide (o2.assetID = o.assetID)) ≠ [] := by
    intro h0
    rw [h0] at hfil
    simp at hfil
  have hget : alGet (groupOutputs tx.outputs) o.assetID =
      some (tx.outputs.filter (fun o2 => decide (o2.assetID = o.assetID))) := by
    rw [alGet_groupOutputs, if_neg hfne]
  have hpair := mem_of_alGet _ _ _ hget
  have hcheck := (eachCheck_ok_iff _ _).mp hok _ hpair
  simp only at hcheck
  cases hassets : st.getAsset o.assetID with
  | none =>
    rw [hassets] at hcheck
    simp at hcheck
  | some asset =>
    rw [hassets] at hcheck
    have hinner := (eachCheck_ok_iff _ _).mp hcheck _ hfil
    rw [if_neg hna] at hinner
    refine ⟨asset, rfl, ?_⟩
    by_cases hdiv : checkAmountPrecise o.value asset.precision 18 = true
    · exact of_decide_eq_true hdiv
    · rw [if_neg hdiv] at hinner
      simp at hinner

/-- Claim C8 witness: the amended theorem applied at a concrete accepted
transaction with a non-native output of value 100 and asset precision
16. -/
theorem c8_value_field_precision_witness :
    ∃ asset, c8WSt.getAsset c8WOut.assetID = some asset ∧
      c8WOut.value % ((10 : Int) ^ (18 - asset.precision)) = 0 :=
  c8_value_field_precision demoEnv c8WSt c8WTx c8WOut (by decide) (by decide)
    (by decide) rfl

/-- Claim C3 (confirmed): the staged cache round trip. Starting from a
fresh session over a store with no value at the key, `GetOrAdd` followed by
`TryGet` returns the supplied value; deleting the key and reading again
yields a not-found-equivalent result; committing the session and reading
through a fresh session returns the flushed value from the store. -/
theorem c3_dbcache_roundtrip (p : Nat) (k : String) (v : StateValue) (s : Store)
    (hs : storeGet s (mkKey p k) = none) :
    ∀ it c1, getOrAdd (newDBCache s) p k v = Except.ok (it, c1) →
      tryGet c1 p k = Except.ok (some v) ∧
      notFoundEquiv (tryGet (cacheDelete c1 k) p k) ∧
      ∀ s2, commit c1 = Except.ok s2 →
        tryGet (newDBCache s2) p k = Except.ok (some v) := by
  intro it c1 hga
  have hc1 : c1 = ⟨[(k, ⟨p, k, some v, false⟩)], s⟩ := by
    unfold getOrAdd tryGetInternal at hga
    simp [newDBCache, alGet, hs, alSet] at hga
    exact hga.2.symm
  subst hc1
  refine ⟨?_, ?_, ?_⟩
  · simp [tryGet, alGet]
  · right
    simp [cacheDelete, rwsetDelete, tryGet, alGet, alSet]
  · intro s2 hcommit
    unfold commit commitLoop at hcommit
    simp [commitLoop] at hcommit
    rw [← hcommit]
    simp [tryGet, newDBCache, alGet, tryGetInternal, storeGet, storePut,
      alGet_alSet_self]

/-- Claim C3 witness: the round trip at the concrete prefix 0, key `k`,
value 1 and the empty store. -/
theorem c3_dbcache_roundtrip_witness :
    tryGet ⟨[("k", ⟨0, "k", some 1, false⟩)], ⟨[]⟩⟩ 0 "k" = Except.ok (some 1) ∧
    notFoundEquiv (tryGet (cacheDelete ⟨[("k", ⟨0, "k", some 1, false⟩)], ⟨[]⟩⟩ "k") 0 "k") ∧
    ∀ s2, commit ⟨[("k", ⟨0, "k", some 1, false⟩)], ⟨[]⟩⟩ = Except.ok s2 →
      tryGet (newDBCache s2) 0 "k" = Except.ok (some 1) :=
  c3_dbcache_roundtrip 0 "k" 1 ⟨[]⟩ rfl (some 1) _ rfl

/-- Claim C4 (confirmed): when `CheckRechargeToSideChainTransaction`
succeeds on a recharge transaction, the sum of all side chain output values
equals the accumulated expected total: the sum, over every payload entry
whose referenced main chain output targets the genesis program hash, of the
entry amount converted at the configured exchange rate. Any inequality
makes the final comparison of the source fail. -/
theorem c4_recharge_total_equals_expected (env : Env) (st : Ledger) (tx : Transaction)
    (proofParsed : Bool) (mainTx : MainTx) (pl : CCPayload) (gph : PHash)
    (hpl : tx.payload = Payload.rechargeToSideChain proofParsed (some mainTx))
    (hcc : mainTx.ccPayload = some pl)
    (hg : st.genesisProgramHash = some gph)
    (hok : checkRechargeToSideChainTransaction env st tx = Except.ok ()) :
    outputValueSum tx.outputs = rechargeExpectedTotal env mainTx pl gph := by
  unfold checkRechargeToSideChainTransaction at hok
  rw [hpl] at hok
  simp only [] at hok
  cases her : env.exchangeRatePos with
  | false =>
    rw [her] at hok
    simp at hok
  | true =>
    cases proofParsed with
    | false =>
      rw [her] at hok
      simp at hok
    | true =>
      cases hdup : st.isMainchainTxHashDuplicate mainTx.txHash with
      | true =>
        rw [her, hdup] at hok
        simp at hok
      | false =>
        rw [her, hdup, hcc, hg] at hok
        cases hloop : rechargeEntryLoop env tx mainTx pl gph
            (List.range pl.crossChainAddresses.length) 0 with
        | error e => simp [hloop] at hok
        | ok ori =>
          cases htgt : rechargeTargetLoop tx.outputs 0 with
          | error e => simp [hloop, htgt] at hok
          | ok tgt =>
            simp [hloop, htgt] at hok
            have hori := rechargeEntryLoop_ok env tx mainTx pl gph _ _ _ hloop
            have htgt2 := rechargeTargetLoop_ok tx.outputs 0 tgt htgt
            unfold outputValueSum rechargeExpectedTotal
            rw [← htgt2, ← hori, hok]

/-- Claim C4 witness: the theorem applied at a concrete accepted recharge
transaction (one deposit of 10 with cross-chain amount 5 at rate 1). -/
theorem c4_recharge_total_equals_expected_witness :
    outputValueSum c4Tx.outputs = rechargeExpectedTotal demoEnv c4MainTx c4Pl ⟨1, 2⟩ :=
  c4_recharge_total_equals_expected demoEnv c4St c4Tx true c4MainTx c4Pl ⟨1, 2⟩
    rfl rfl rfl rfl

/-- Claim C9 (confirmed): in the non-recharge case, with resolved input
references, the fee map maps every asset appearing among the outputs to the
sum of its referenced input values minus the sum of its output values (a
missing input sum defaulting to zero), and every asset appearing only among
the inputs to the sum of its input values. -/
theorem c9_feemap_general_case (env : Env) (st : Ledger) (tx : Transaction)
    (refs : List (TxInput × TxOutput)) (fm : List (Uint256 × Int))
    (hrec : tx.isRechargeToSideChainTx = false)
    (href : st.getTxReference tx = some refs)
    (hok : getTxFeeMap env st tx = Except.ok fm) :
    (∀ a ∈ txOutAssets tx.outputs,
      alGet fm a = some (assetInputSum refs a - assetOutputSum tx.outputs a)) ∧
    (∀ a ∈ txRefAssets refs, a ∉ txOutAssets tx.outputs →
      alGet fm a = some (assetInputSum refs a)) := by
  unfold getTxFeeMap at hok
  rw [href] at hok
  simp only [hrec, Bool.false_eq_true, if_false, ite_false] at hok
  injection hok with hfm
  rw [← hfm]
  constructor
  · intro a ha
    have hfov : tx.outputs.filter (fun o => decide (o.assetID = a)) ≠ [] :=
      (mem_txOutAssets_iff _ _).mp ha
    have hOUT : alGet (tx.outputs.foldl (fun m o => feeAccum m o.assetID o.value) []) a =
        some (assetOutputSum tx.outputs a) := by
      rw [alGet_outputSums, if_neg hfov]
    have hpair := mem_of_alGet _ _ _ hOUT
    have hnodOUT : (alKeys
        (tx.outputs.foldl (fun m o => feeAccum m o.assetID o.value) [])).Nodup :=
      nodup_alKeys_sumFold (fun o : TxOutput => o.assetID) (fun o => o.value)
        tx.outputs [] (by simp [alKeys])
    have h3 : alGet (feePhase3
        (refs.foldl (fun m io => feeAccum m io.2.assetID io.2.value) [])
        (tx.outputs.foldl (fun m o => feeAccum m o.assetID o.value) [])) a =
        some ((alGet (refs.foldl (fun m io => feeAccum m io.2.assetID io.2.value) []) a).getD 0
          - assetOutputSum tx.outputs a) := by
      unfold feePhase3
      exact phase3_fold_get_mem _ _ _ _ _ hnodOUT hpair rfl
    have hIN : (alGet (refs.foldl (fun m io => feeAccum m io.2.assetID io.2.value) []) a).getD 0 =
        assetInputSum refs a := by
      rw [alGet_inputSums]
      by_cases hfiv : refs.filter (fun io => decide (io.2.assetID = a)) = []
      · rw [if_pos hfiv, assetInputSum_eq_pair_fold, hfiv]
        rfl
      · rw [if_neg hfiv]
        rfl
    rw [hIN] at h3
    unfold feePhase4
    exact phase4_fold_preserve _ _ _ _ h3
  · intro a hain haout
    have hfov : tx.outputs.filter (fun o => decide (o.assetID = a)) = [] := by
      by_contra hne
      exact haout ((mem_txOutAssets_iff _ _).mpr hne)
    have hOUT : alGet (tx.outputs.foldl (fun m o => feeAccum m o.assetID o.value) []) a =
        none := by
      rw [alGet_outputSums, if_pos hfov]
    have hkeys : a ∉ alKeys (tx.outputs.foldl (fun m o => feeAccum m o.assetID o.value) []) :=
      (alGet_eq_none_iff _ _).mp hOUT
    have h3 : alGet (feePhase3
        (refs.foldl (fun m io => feeAccum m io.2.assetID io.2.value) [])
        (tx.outputs.foldl (fun m o => feeAccum m o.assetID o.value) [])) a = none := by
      unfold feePhase3
      rw [phase3_fold_get_notmem _ _ _ _ hkeys]
      rfl
    have hfiv : refs.filter (fun io => decide (io.2.assetID = a)) ≠ [] :=
      (mem_txRefAssets_iff _ _).mp hain
    have hINa : alGet (refs.foldl (fun m io => feeAccum m io.2.assetID io.2.value) []) a =
        some (assetInputSum refs a) := by
      rw [alGet_inputSums, if_neg hfiv]
    have hpair := mem_of_alGet _ _ _ hINa
    have hnodIN : (alKeys
        (refs.foldl (fun m io => feeAccum m io.2.assetID io.2.value) [])).Nodup :=
      nodup_alKeys_sumFold (fun io : TxInput × TxOutput => io.2.assetID)
        (fun io => io.2.value) refs [] (by simp [alKeys])
    unfold feePhase4
    exact phase4_fold_new _ _ _ _ hnodIN hpair h3

/-- Claim C9 witness: the theorem applied at a concrete transaction. Asset
1 appears in the outputs with fee entry 5 - 3 = 2; asset 7 appears only
among the inputs with fee entry 2. -/
theorem c9_feemap_general_case_witness :
    (∀ a ∈ txOutAssets c9Tx.outputs,
      alGet ([(1, 2), (7, 2)] : List (Uint256 × Int)) a =
        some (assetInputSum c9Refs a - assetOutputSum c9Tx.outputs a)) ∧
    (∀ a ∈ txRefAssets c9Refs, a ∉ txOutAssets c9Tx.outputs →
      alGet ([(1, 2), (7, 2)] : List (Uint256 × Int)) a =
        some (assetInputSum c9Refs a)) :=
  c9_feemap_general_case demoEnv c9St c9Tx c9Refs [(1, 2), (7, 2)] rfl rfl rfl

/-- Claim C10 (confirmed): in the non-recharge case the fee calculator
reads only the `AssetID` and `Value` fields of outputs and resolved
references: two runs whose transaction outputs and resolved references
agree on those fields (and may differ arbitrarily in `TokenValue`) produce
identical fee maps. -/
theorem c10_feemap_ignores_token_value (env : Env) (st1 st2 : Ledger)
    (tx1 tx2 : Transaction)
    (hrec1 : tx1.isRechargeToSideChainTx = false)
    (hrec2 : tx2.isRechargeToSideChainTx = false)
    (houts : List.Forall₂ outValueAgree tx1.outputs tx2.outputs)
    (hrefs : refsValueAgree (st1.getTxReference tx1) (st2.getTxReference tx2)) :
    getTxFeeMap env st1 tx1 = getTxFeeMap env st2 tx2 := by
  unfold getTxFeeMap
  simp only [hrec1, hrec2, Bool.false_eq_true, if_false, ite_false]
  cases h1 : st1.getTxReference tx1 with
  | none =>
    cases h2 : st2.getTxReference tx2 with
    | none => rfl
    | some l2 =>
      rw [h1, h2] at hrefs
      exact absurd hrefs (by simp [refsValueAgree])
  | some l1 =>
    cases h2 : st2.getTxReference tx2 with
    | none =>
      rw [h1, h2] at hrefs
      exact absurd hrefs (by simp [refsValueAgree])
    | some l2 =>
      rw [h1, h2] at hrefs
      have hf : List.Forall₂ (fun a b => outValueAgree a.2 b.2) l1 l2 := hrefs
      simp only [feeAccum_fold_refs_congr l1 l2 hf,
        feeAccum_fold_outs_congr tx1.outputs tx2.outputs houts]

/-- Claim C10 witness: the theorem applied to two concrete runs differing
only in the token values of the outputs and references. -/
theorem c10_feemap_ignores_token_value_witness :
    getTxFeeMap demoEnv c9St c9Tx = getTxFeeMap demoEnv c10St c10Tx :=
  c10_feemap_ignores_token_value demoEnv c9St c10St c9Tx c10Tx rfl rfl
    (List.Forall₂.cons ⟨rfl, rfl⟩ List.Forall₂.nil)
    (List.Forall₂.cons ⟨rfl, rfl⟩ (List.Forall₂.cons ⟨rfl, rfl⟩ List.Forall₂.nil))

end ElaSC

